import Mathlib

/-!
# Verification of the accessibility-audit pipeline

Shallow embedding of the finding-normalization logic of the accessibility
audit repository: the CDP accessibility-tree adapter
(`buildTreeFromAXNodes` / `walk`), the Axe report aggregation in the
reporter, the Lighthouse result normalization and WCAG-resolution chain,
the WAVE capture parser and Jira-issue conversion, the Axe target-size
post-check, the WAVE API scan error policy, and the Lighthouse CI gate.

JavaScript strings are modelled as Lean `String`s; the handful of
JavaScript string primitives the code uses (`trim`, `toLowerCase`,
`toUpperCase`, `includes`, `slice`) are re-implemented over `String.data`
(`List Char`) so that all definitions compute inside the kernel.
JavaScript numbers that carry fractional CSS pixel sizes are modelled as
`ℚ`; integral counters as `Nat`.
-/

/-! ## JavaScript string primitives -/

/-- The whitespace class used by JavaScript `trim` and by `\s` in regexes:
tab, line feed, vertical tab, form feed, carriage return, space, NBSP and
the Unicode space separators, line/paragraph separators and BOM. -/
def jsIsWs (c : Char) : Bool :=
  c = '\t' || c = '\n' || c.toNat = 0x0B || c.toNat = 0x0C || c = '\r' || c = ' ' ||
  c.toNat = 0xA0 || c.toNat = 0x1680 || (0x2000 ≤ c.toNat && c.toNat ≤ 0x200A) ||
  c.toNat = 0x2028 || c.toNat = 0x2029 || c.toNat = 0x202F || c.toNat = 0x205F ||
  c.toNat = 0x3000 || c.toNat = 0xFEFF

/-- JavaScript `String.prototype.trim` on a character list. -/
def jsTrimList (l : List Char) : List Char :=
  ((l.dropWhile jsIsWs).reverse.dropWhile jsIsWs).reverse

/-- JavaScript `String.prototype.trim`. -/
def jsTrim (s : String) : String :=
  ⟨jsTrimList s.data⟩

/-- ASCII lower-casing of one character (the repository only ever
lower-cases ASCII role/category/tag strings). -/
def jsLowerChar (c : Char) : Char :=
  if 'A' ≤ c ∧ c ≤ 'Z' then Char.ofNat (c.toNat + 32) else c

/-- ASCII upper-casing of one character. -/
def jsUpperChar (c : Char) : Char :=
  if 'a' ≤ c ∧ c ≤ 'z' then Char.ofNat (c.toNat - 32) else c

/-- JavaScript `String.prototype.toLowerCase` (ASCII model). -/
def jsToLower (s : String) : String :=
  ⟨s.data.map jsLowerChar⟩

/-- JavaScript `String.prototype.toUpperCase` (ASCII model). -/
def jsToUpper (s : String) : String :=
  ⟨s.data.map jsUpperChar⟩

/-- Character-list prefix test. -/
def listPrefix : List Char → List Char → Bool
  | [], _ => true
  | _ :: _, [] => false
  | a :: as, b :: bs => a = b && listPrefix as bs

/-- Character-list infix test (`needle` occurs somewhere in the second list). -/
def listInfix (needle : List Char) : List Char → Bool
  | [] => listPrefix needle []
  | c :: rest' => listPrefix needle (c :: rest') || listInfix needle rest'

/-- JavaScript `String.prototype.includes`. -/
def jsIncludes (hay needle : String) : Bool :=
  listInfix needle.data hay.data

/-- JavaScript `String.prototype.slice(0, n)` (by code points; the strings
involved are plain text). -/
def jsSlice0 (s : String) (n : Nat) : String :=
  ⟨s.data.take n⟩

/-- Lookup in a JavaScript object literal / `Map`, modelled as an
association list (keys unique at construction). -/
def lookupStr {α : Type} (m : List (String × α)) (k : String) : Option α :=
  (m.find? (fun p => p.1 == k)).map (·.2)

/-! ## Accessibility-tree adapter: data model

Source: the CDP tree engine (`buildTreeFromAXNodes`, `walk`,
`runA11yTreeScan`).  A CDP `AXValue` carries an arbitrary JS value that the
code immediately stringifies (`String(v.value)`), so an `AXValue` field is
modelled as the already-stringified `Option String`. -/

/-- CDP `AXNode` (flat list entry from `Accessibility.getFullAXTree`).
`role`/`name`/`description` model `AXValue.value` after `String(·)`. -/
structure AXNode where
  nodeId : String
  ignored : Bool
  role : Option String
  name : Option String
  description : Option String
  parentId : Option String
  childIds : List String
deriving Repr, DecidableEq

/-- `axValueToString`: `undefined`/`null` values give `undefined`, else the
stringified value is trimmed, with the empty string collapsing to
`undefined` (`String(v.value).trim() || undefined`). -/
def axValueToString : Option String → Option String
  | none => none
  | some s => if jsTrim s = "" then none else some (jsTrim s)

/-- Playwright-style snapshot node built by the adapter. -/
inductive SnapshotNode where
  | mk (role : Option String) (name : Option String) (description : Option String)
      (children : List SnapshotNode)
deriving Repr

def SnapshotNode.role : SnapshotNode → Option String
  | .mk r _ _ _ => r

def SnapshotNode.name : SnapshotNode → Option String
  | .mk _ n _ _ => n

def SnapshotNode.descr : SnapshotNode → Option String
  | .mk _ _ d _ => d

def SnapshotNode.children : SnapshotNode → List SnapshotNode
  | .mk _ _ _ cs => cs

/-- `byId`: a JS `Map` built by `nodes.forEach((n) => byId.set(k(n.nodeId), n))`;
`Map.set` overwrites, so the last occurrence of an id wins. -/
def byIdGet (nodes : List AXNode) (id : String) : Option AXNode :=
  nodes.foldl (fun acc n => if n.nodeId = id then some n else acc) none

/-- `treeNodes`: ids mapped to snapshot shells, populated only for
non-ignored nodes (again last occurrence wins).  We record the winning
`AXNode`; its snapshot shell is `role/name/description` after
`axValueToString`. -/
def treeNodesGet (nodes : List AXNode) (id : String) : Option AXNode :=
  nodes.foldl (fun acc n => if n.nodeId = id && !n.ignored then some n else acc) none

/-- `collectVisibleChildren`: walk a child-id list, emitting the snapshot of
each non-ignored child and skipping through ignored intermediaries into
their child ids.  The JS recursion is unbounded (its call stack); here it
carries explicit fuel, consumed once per level of descent, and
`buildTreeFromAXNodes` supplies fuel exceeding the depth of any tree built
from the node list.

In the source the snapshot of a non-ignored child is a shared mutable
object whose `children` field is filled in by the outer
`treeNodes.forEach` loop from `byId.get(nid).childIds`; the pure embedding
inlines that assignment, so a visible child's fields come from the
`treeNodes` entry and its children from the `byId` entry. -/
def visChildren (nodes : List AXNode) : Nat → List String → List SnapshotNode
  | 0, _ => []
  | fuel + 1, cids =>
    cids.flatMap fun cid =>
      match treeNodesGet nodes cid with
      | some tn =>
        [SnapshotNode.mk (axValueToString tn.role) (axValueToString tn.name)
          (axValueToString tn.description)
          (match byIdGet nodes cid with
           | some ax => visChildren nodes fuel ax.childIds
           | none => [])]
      | none =>
        match byIdGet nodes cid with
        | some raw => visChildren nodes fuel raw.childIds
        | none => []

/-- The fully-built snapshot stored in `treeNodes` for an id (fields from
the winning non-ignored occurrence, children via `byId`), or `none` when
the id has no non-ignored occurrence. -/
def snapOf (nodes : List AXNode) (fuel : Nat) (id : String) : Option SnapshotNode :=
  match treeNodesGet nodes id with
  | none => none
  | some tn =>
    some (SnapshotNode.mk (axValueToString tn.role) (axValueToString tn.name)
      (axValueToString tn.description)
      (match byIdGet nodes id with
       | some ax => visChildren nodes fuel ax.childIds
       | none => []))

/-- The root-candidate test `!n.ignored && (!n.parentId || !byId.has(k(n.parentId)))`
(a present-but-empty parent id is falsy in JS). -/
def isRootCandidate (nodes : List AXNode) (n : AXNode) : Bool :=
  !n.ignored &&
    (match n.parentId with
     | none => true
     | some p => p = "" || (byIdGet nodes p).isNone)

/-- `buildTreeFromAXNodes` (reparenting version): build the snapshot tree
from the flat CDP node list, eliding ignored nodes and reparenting their
children to the nearest non-ignored ancestor; if the apparent root is
itself ignored, fall back to the very first node, synthesizing a virtual
`RootWebArea` root when needed. -/
def buildTreeFromAXNodes (nodes : List AXNode) : Option SnapshotNode :=
  let fuel := nodes.length
  let rootAttempt :=
    match nodes.find? (isRootCandidate nodes) with
    | some rootNode => snapOf nodes fuel rootNode.nodeId
    | none => none
  match rootAttempt with
  | some s => some s
  | none =>
    match nodes.head? with
    | some firstNode =>
      (match snapOf nodes fuel firstNode.nodeId with
       | some s => some s
       | none =>
         if firstNode.childIds ≠ [] then
           some (SnapshotNode.mk (some "RootWebArea") none none
             (visChildren nodes fuel firstNode.childIds))
         else
           match nodes.find? (fun n => !n.ignored) with
           | some n => snapOf nodes fuel n.nodeId
           | none => none)
    | none => none

/-! ## Accessibility-tree adapter: the walk -/

/-- Inventory of counted roles accumulated by `walk`. -/
structure A11yTreeInventory where
  links : Nat
  buttons : Nat
  images : Nat
  videos : Nat
  audio : Nat
  iframes : Nat
deriving Repr, DecidableEq

/-- An issue emitted by `walk`. -/
structure A11yTreeIssue where
  kind : String
  role : String
  name : Option String
  description : Option String
  summary : String
  actionable : Bool
deriving Repr, DecidableEq

def emptyInventory : A11yTreeInventory :=
  ⟨0, 0, 0, 0, 0, 0⟩

/-- `isEmptyName`: `name == null || String(name).trim() === ''`. -/
def isEmptyName (name : Option String) : Bool :=
  name.isNone || jsTrim (name.getD "") = ""

/-- The per-node body of `walk` (everything before the recursion into the
children), acting on the inventory/issue accumulator. -/
def stepWalk (r n d : Option String) (st : A11yTreeInventory × List A11yTreeIssue) :
    A11yTreeInventory × List A11yTreeIssue :=
  let role := jsToLower (r.getD "")
  let inv := st.1
  let issues := st.2
  let inv := if role = "link" then { inv with links := inv.links + 1 } else inv
  let issues :=
    if role = "link" && isEmptyName n then
      issues ++ [⟨"nameless-link", "link", n, d,
        "Link has no accessible name (screen reader will not announce purpose).", true⟩]
    else issues
  let inv := if role = "button" then { inv with buttons := inv.buttons + 1 } else inv
  let issues :=
    if role = "button" && isEmptyName n then
      issues ++ [⟨"nameless-button", "button", n, d,
        "Button has no accessible name (e.g. icon-only with no aria-label or text).", true⟩]
    else issues
  let issues :=
    if (role = "textbox" || role = "searchbox" || role = "combobox") && isEmptyName n then
      issues ++ [⟨"nameless-input", role, n, none,
        "Input (" ++ role ++ ") has no accessible name/label.", true⟩]
    else issues
  let inv := if role = "image" || role = "img" then { inv with images := inv.images + 1 } else inv
  let inv := if role = "video" then { inv with videos := inv.videos + 1 } else inv
  let inv := if role = "audio" then { inv with audio := inv.audio + 1 } else inv
  let inv := if role = "iframe" || role = "embed" then { inv with iframes := inv.iframes + 1 } else inv
  (inv, issues)

mutual

/-- `walk`: depth-first traversal accumulating inventory counts and issues
(the source mutates `inventory`/`issues`; here the accumulator is threaded). -/
def walkAcc : SnapshotNode → A11yTreeInventory × List A11yTreeIssue →
    A11yTreeInventory × List A11yTreeIssue
  | .mk r n d cs, st => walkForest cs (stepWalk r n d st)

/-- `walk` over `node.children ?? []`, left to right. -/
def walkForest : List SnapshotNode → A11yTreeInventory × List A11yTreeIssue →
    A11yTreeInventory × List A11yTreeIssue
  | [], st => st
  | c :: cs', st => walkForest cs' (walkAcc c st)

end

/-- `runA11yTreeScan`'s use of `walk`: start from zeroed inventory and an
empty issue list (a `null` snapshot leaves both untouched). -/
def runWalk (root : Option SnapshotNode) : A11yTreeInventory × List A11yTreeIssue :=
  match root with
  | none => (emptyInventory, [])
  | some s => walkAcc s (emptyInventory, [])

/-- Total of the six inventory counters. -/
def invTotal (inv : A11yTreeInventory) : Nat :=
  inv.links + inv.buttons + inv.images + inv.videos + inv.audio + inv.iframes

/-- Does a raw role string land in the counted set of `walk`
(after `axValueToString` and lower-casing)? -/
def countedRoleStr (r : Option String) : Bool :=
  let role := jsToLower (r.getD "")
  role = "link" || role = "button" || role = "image" || role = "img" ||
  role = "video" || role = "audio" || role = "iframe" || role = "embed"

mutual

/-- Depth-first list of `(role, name, description)` entries visited by
`walk` (specification-side instrumentation of the traversal). -/
def nodeTriples : SnapshotNode → List (Option String × Option String × Option String)
  | .mk r n d cs => (r, n, d) :: forestTriples cs

def forestTriples : List SnapshotNode → List (Option String × Option String × Option String)
  | [] => []
  | c :: cs' => nodeTriples c ++ forestTriples cs'

end

def travEntries : Option SnapshotNode → List (Option String × Option String × Option String)
  | none => []
  | some s => nodeTriples s

/-- `(role, name)` pairs visited by the depth-first walk of a built tree. -/
def travPairs (o : Option SnapshotNode) : List (Option String × Option String) :=
  (travEntries o).map (fun x => (x.1, x.2.1))

/-! ## Accessibility-tree adapter: well-formed inputs

`Accessibility.getFullAXTree` delivers the flattening of a rooted tree
(root first, children in order, `parentId`/`childIds` consistent).  An
input in the image of `flattenTree` with distinct node ids is exactly such
a list; the tree-shaped quantification makes the implicit CDP contract
explicit. -/

/-- A rooted accessibility tree (the shape whose preorder flattening CDP
hands to `buildTreeFromAXNodes`). -/
inductive AXTree where
  | node (nodeId : String) (ignored : Bool) (role : Option String) (name : Option String)
      (description : Option String) (children : List AXTree)
deriving Repr

def AXTree.nodeId : AXTree → String
  | .node i _ _ _ _ _ => i

def AXTree.ignored : AXTree → Bool
  | .node _ ig _ _ _ _ => ig

def AXTree.role : AXTree → Option String
  | .node _ _ r _ _ _ => r

def AXTree.name : AXTree → Option String
  | .node _ _ _ n _ _ => n

def AXTree.descr : AXTree → Option String
  | .node _ _ _ _ d _ => d

def AXTree.children : AXTree → List AXTree
  | .node _ _ _ _ _ cs => cs

/-- The flat `AXNode` row for one tree node under a given parent id. -/
def mkAXNode (parent : Option String) (t : AXTree) : AXNode :=
  ⟨t.nodeId, t.ignored, t.role, t.name, t.descr, parent, t.children.map AXTree.nodeId⟩

mutual

/-- All `(parent id, subtree)` pairs of a tree, in preorder. -/
def subPairs (parent : Option String) : AXTree → List (Option String × AXTree)
  | .node id ig r n d cs => (parent, .node id ig r n d cs) :: subPairsF (some id) cs

def subPairsF (parent : Option String) : List AXTree → List (Option String × AXTree)
  | [] => []
  | c :: cs' => subPairs parent c ++ subPairsF parent cs'

end

/-- Preorder flattening of a tree into the flat CDP node list. -/
def flattenTree (parent : Option String) (t : AXTree) : List AXNode :=
  (subPairs parent t).map (fun x => mkAXNode x.1 x.2)

/-- Preorder flattening of a forest. -/
def flattenForest (parent : Option String) (cs : List AXTree) : List AXNode :=
  (subPairsF parent cs).map (fun x => mkAXNode x.1 x.2)

/-- Node ids of the flat list, in order. -/
def treeIds (t : AXTree) : List String :=
  (flattenTree none t).map AXNode.nodeId

/-- Well-formed CDP input: the flat list is the flattening of a rooted tree
whose node ids are distinct and nonempty (CDP ids are globally unique
positive integers rendered as strings). -/
def Wellformed (t : AXTree) : Prop :=
  (treeIds t).Nodup ∧ "" ∉ treeIds t

mutual

/-- Reference semantics of the tree rebuild: the snapshot forest of a tree,
eliding ignored nodes and splicing their children in place. -/
def visibleTree : AXTree → List SnapshotNode
  | .node _ ig r n d cs =>
    if ig then visibleForest cs
    else [SnapshotNode.mk (axValueToString r) (axValueToString n) (axValueToString d)
      (visibleForest cs)]

def visibleForest : List AXTree → List SnapshotNode
  | [] => []
  | c :: cs' => visibleTree c ++ visibleForest cs'

end

/-- Reference semantics of `buildTreeFromAXNodes` on the flattening of a
well-formed tree: the root's snapshot when the root is not ignored, a
virtual `RootWebArea` over the root's visible children when the root is
ignored but has children, nothing otherwise. -/
def visibleRoot (t : AXTree) : Option SnapshotNode :=
  match t with
  | .node _ ig r n d cs =>
    if ig = false then
      some (.mk (axValueToString r) (axValueToString n) (axValueToString d) (visibleForest cs))
    else if cs.isEmpty then none
    else some (.mk (some "RootWebArea") none none (visibleForest cs))

/-- `ReplacedBy g repl t t'`: `t'` is `t` with one occurrence of the
subtree `g` (never the root) replaced by the list `repl` of subtrees,
spliced in place among its siblings. -/
inductive ReplacedBy (g : AXTree) (repl : List AXTree) : AXTree → AXTree → Prop
  | here (id : String) (ig : Bool) (r n d : Option String) (pre post : List AXTree) :
      ReplacedBy g repl (.node id ig r n d (pre ++ g :: post))
        (.node id ig r n d (pre ++ repl ++ post))
  | deeper (id : String) (ig : Bool) (r n d : Option String) (pre post : List AXTree)
      (c c' : AXTree) :
      ReplacedBy g repl c c' →
      ReplacedBy g repl (.node id ig r n d (pre ++ c :: post))
        (.node id ig r n d (pre ++ c' :: post))

/-- The same node with its ignored flag cleared. -/
def unignore : AXTree → AXTree
  | .node id _ r n d cs => .node id false r n d cs

/-! ## Axe reporter aggregation (`generateReport`, Axe-core branch) -/

/-- One check result attached to an Axe node (shape only; unused by the
aggregation logic). -/
structure AxeCheckResult where
  id : String
  impact : Option String
  message : String
deriving Repr, DecidableEq

/-- An affected DOM node of an Axe rule result (`any`/`all`/`none` are the
check-result lists of the axe-core shape). -/
structure AxeNodeResult where
  html : String
  target : List String
  anyChecks : List AxeCheckResult
  allChecks : List AxeCheckResult
  noneChecks : List AxeCheckResult
deriving Repr, DecidableEq

/-- An Axe rule result (violation or incomplete entry). -/
structure AxeResult where
  id : String
  impact : Option String
  description : String
  help : String
  helpUrl : String
  tags : List String
  nodes : List AxeNodeResult
deriving Repr, DecidableEq

/-- A rule result paired with its actionable flag, as built by the Axe
branch of `generateReport`. -/
structure AxeItem where
  result : AxeResult
  actionable : Bool
deriving Repr, DecidableEq

/-- The `items` list of the Axe branch of `generateReport`: violations
only (all actionable) in the actionable-only view, violations followed by
incomplete entries (informational) in the all-issues view. -/
def axeItems (axeViolations axeIncomplete : List AxeResult) (actionableOnly : Bool) :
    List AxeItem :=
  if actionableOnly then
    axeViolations.map (fun v => ⟨v, true⟩)
  else
    axeViolations.map (fun v => ⟨v, true⟩) ++ axeIncomplete.map (fun i => ⟨i, false⟩)

/-- `totalNodes`: `items.reduce((sum, {result}) => sum + result.nodes.length, 0)`. -/
def axeTotalNodes (items : List AxeItem) : Nat :=
  items.foldl (fun sum it => sum + it.result.nodes.length) 0

/-- `actionableCount`: the number the report displays as its count of
actionable findings —
`items.filter((i) => i.actionable).reduce((s, i) => s + i.result.nodes.length, 0)`. -/
def axeActionableCount (items : List AxeItem) : Nat :=
  (items.filter (fun i => i.actionable)).foldl (fun s i => s + i.result.nodes.length) 0

/-! ## Axe engine target-size post-check (`runAxeScan`) -/

/-- `MIN_TARGET_SIZE`. -/
def MIN_TARGET_SIZE : ℚ := 24

/-- An interactive element as seen by the in-page measurement function:
its tag name, `id` and `className` strings (empty when unset), and its
`getBoundingClientRect()` width/height in CSS pixels. -/
structure PageElement where
  tagName : String
  elemId : String
  className : String
  width : ℚ
  height : ℚ
deriving Repr, DecidableEq

/-- One undersized target recorded by the measurement function. -/
structure SmallTarget where
  selector : String
  width : ℤ
  height : ℤ
deriving Repr, DecidableEq

/-- JavaScript `Math.round`: ⌊x + 1/2⌋ (half-up, toward +∞ at halves). -/
def jsRound (q : ℚ) : ℤ :=
  ⌊q + 1 / 2⌋

/-- `String(el.className).trim().split(/\s+/)[0]`. -/
def firstClassToken (className : String) : String :=
  ⟨(jsTrimList className.data).takeWhile (fun c => !jsIsWs c)⟩

/-- The selector the measurement function reports for an element:
`el.id ? '#'+id : tag.toLowerCase() + (className ? '.'+firstClass : '')`. -/
def elementSelector (el : PageElement) : String :=
  if el.elemId ≠ "" then "#" ++ el.elemId
  else
    jsToLower el.tagName ++
      (if el.className ≠ "" then "." ++ firstClassToken el.className else "")

/-- The in-page measurement: for each interactive element in document
order, record it iff its rendered width or height is below
`MIN_TARGET_SIZE`. -/
def measureSmallTargets (elements : List PageElement) : List SmallTarget :=
  elements.foldl
    (fun acc el =>
      if el.width < MIN_TARGET_SIZE ∨ el.height < MIN_TARGET_SIZE then
        acc ++ [⟨elementSelector el, jsRound el.width, jsRound el.height⟩]
      else acc)
    []

/-- The synthesized `target-size-minimum` violation entry. -/
def targetSizeViolation (smallTargets : List SmallTarget) : AxeResult :=
  ⟨"target-size-minimum", some "serious",
    "WCAG 2.5.8: Interactive elements must have a minimum size of 24×24 CSS pixels.",
    "Ensure touch targets are at least 24×24 pixels.",
    "https://www.w3.org/WAI/WCAG22/Understanding/target-size-minimum.html",
    ["wcag2aa", "wcag22aa", "cat-target-size"],
    smallTargets.map (fun v => ⟨"", [v.selector], [], [], []⟩)⟩

/-- The post-analysis step of `runAxeScan`: measure the interactive
elements and, when any is undersized, push one synthesized violation onto
the engine's violation list. -/
def appendTargetSizeCheck (axeViolations : List AxeResult) (elements : List PageElement) :
    List AxeResult :=
  let smallTargets := measureSmallTargets elements
  if smallTargets.length > 0 then axeViolations ++ [targetSizeViolation smallTargets]
  else axeViolations

/-! ## Lighthouse engine (`normalizeLhrToResult`) and WCAG resolution -/

/-- `^wcag\d{3}$` case-insensitively (the filter applied both to artifact
tags in the engine and inside `mapWcagTags`). -/
def isWcag3Tag (s : String) : Bool :=
  match (jsToLower s).data with
  | ['w', 'c', 'a', 'g', d1, d2, d3] => d1.isDigit && d2.isDigit && d3.isDigit
  | _ => false

/-- `WCAG_TAG_MAP`: tag → human-readable label. -/
def WCAG_TAG_MAP : List (String × String) :=
  [("wcag111", "WCAG 1.1.1 Non-text Content (Level A)"),
   ("wcag121", "WCAG 1.2.1 Audio-only and Video-only (Prerecorded) (Level A)"),
   ("wcag122", "WCAG 1.2.2 Captions (Prerecorded) (Level A)"),
   ("wcag131", "WCAG 1.3.1 Info and Relationships (Level A)"),
   ("wcag141", "WCAG 1.4.1 Use of Color (Level A)"),
   ("wcag143", "WCAG 1.4.3 Contrast (Minimum) (Level AA)"),
   ("wcag144", "WCAG 1.4.4 Resize Text (Level AA)"),
   ("wcag211", "WCAG 2.1.1 Keyboard (Level A)"),
   ("wcag221", "WCAG 2.2.1 Timing Adjustable (Level A)"),
   ("wcag241", "WCAG 2.4.1 Bypass Blocks (Level A)"),
   ("wcag242", "WCAG 2.4.2 Page Titled (Level A)"),
   ("wcag243", "WCAG 2.4.3 Focus Order (Level A)"),
   ("wcag244", "WCAG 2.4.4 Link Purpose (In Context) (Level A)"),
   ("wcag258", "WCAG 2.5.8 Target Size (Minimum) (Level AA)"),
   ("wcag311", "WCAG 3.1.1 Language of Page (Level A)"),
   ("wcag332", "WCAG 3.3.2 Labels or Instructions (Level A)"),
   ("wcag411", "WCAG 4.1.1 Parsing (Level A)"),
   ("wcag412", "WCAG 4.1.2 Name, Role, Value (Level A)")]

/-- `\w` (word character) of JavaScript regexes. -/
def jsIsWordChar (c : Char) : Bool :=
  c.isAlphanum || c = '_'

/-- `replace(/\b\w/g, (c) => c.toUpperCase())`: upper-case every word
character that starts a word run. -/
def capitalizeWordStarts : Bool → List Char → List Char
  | _, [] => []
  | prevWord, c :: cs =>
    (if jsIsWordChar c && !prevWord then jsUpperChar c else c) ::
      capitalizeWordStarts (jsIsWordChar c) cs

/-- The generic prettifier tail of `mapWcagTag`:
`tag.replace(/[-_]/g, ' ').replace(/\b\w/g, (c) => c.toUpperCase())`. -/
def prettifyTag (s : String) : String :=
  ⟨capitalizeWordStarts false
    (s.data.map (fun c => if c = '-' || c = '_' then ' ' else c))⟩

/-- `mapWcagTag`: dictionary lookup, then `wcag\d{3}` digit formatting,
then the generic prettifier. -/
def mapWcagTag (tag : String) : String :=
  let key := jsToLower tag
  match lookupStr WCAG_TAG_MAP key with
  | some label => label
  | none =>
    match key.data with
    | ['w', 'c', 'a', 'g', d1, d2, d3] =>
      if d1.isDigit && d2.isDigit && d3.isDigit then
        "WCAG " ++ ⟨[d1]⟩ ++ "." ++ ⟨[d2]⟩ ++ "." ++ ⟨[d3]⟩
      else prettifyTag tag
    | _ => prettifyTag tag

/-- `mapWcagTags`: keep only `^wcag\d{3}$` tags, map each to its label. -/
def mapWcagTags (tags : List String) : List String :=
  (tags.filter isWcag3Tag).map mapWcagTag

/-- `LIGHTHOUSE_AUDIT_WCAG`: static audit-id → WCAG tag table. -/
def LIGHTHOUSE_AUDIT_WCAG : List (String × List String) :=
  [("accesskeys", ["wcag241"]),
   ("bypass", ["wcag241"]),
   ("document-title", ["wcag242"]),
   ("frame-title", ["wcag412", "wcag241"]),
   ("skip-link", ["wcag241"]),
   ("tabindex", ["wcag243"]),
   ("aria-allowed-attr", ["wcag412"]),
   ("aria-allowed-role", ["wcag412"]),
   ("aria-command-name", ["wcag412"]),
   ("aria-conditional-attr", ["wcag412"]),
   ("aria-dialog-name", ["wcag412"]),
   ("aria-hidden-body", ["wcag412"]),
   ("aria-hidden-focus", ["wcag412"]),
   ("aria-input-field-name", ["wcag412"]),
   ("aria-meter-name", ["wcag412"]),
   ("aria-progressbar-name", ["wcag412"]),
   ("aria-prohibited-attr", ["wcag412"]),
   ("aria-required-attr", ["wcag412"]),
   ("aria-roles", ["wcag412"]),
   ("aria-text", ["wcag412"]),
   ("aria-toggle-field-name", ["wcag412"]),
   ("aria-tooltip-name", ["wcag412"]),
   ("aria-treeitem-name", ["wcag412"]),
   ("aria-valid-attr-value", ["wcag412"]),
   ("aria-valid-attr", ["wcag412"]),
   ("button-name", ["wcag412"]),
   ("input-button-name", ["wcag412"]),
   ("link-name", ["wcag412", "wcag244"]),
   ("select-name", ["wcag412", "wcag131"]),
   ("aria-required-children", ["wcag131"]),
   ("aria-required-parent", ["wcag131"]),
   ("definition-list", ["wcag131"]),
   ("dlitem", ["wcag131"]),
   ("heading-order", ["wcag131"]),
   ("empty-heading", ["wcag131"]),
   ("list", ["wcag131"]),
   ("listitem", ["wcag131"]),
   ("layout-table", ["wcag131"]),
   ("table-fake-caption", ["wcag131"]),
   ("td-has-header", ["wcag131"]),
   ("td-headers-attr", ["wcag131"]),
   ("th-has-data-cells", ["wcag131"]),
   ("form-field-multiple-labels", ["wcag332"]),
   ("label", ["wcag412", "wcag131"]),
   ("html-has-lang", ["wcag311"]),
   ("html-lang-valid", ["wcag311"]),
   ("html-xml-lang-mismatch", ["wcag311"]),
   ("valid-lang", ["wcag311"]),
   ("meta-refresh", ["wcag221"]),
   ("meta-viewport", ["wcag144"]),
   ("color-contrast", ["wcag143"]),
   ("image-alt", ["wcag111"]),
   ("image-redundant-alt", ["wcag111"]),
   ("input-image-alt", ["wcag111"]),
   ("object-alt", ["wcag111"]),
   ("video-caption", ["wcag122"]),
   ("link-in-text-block", ["wcag141"]),
   ("identical-links-same-purpose", ["wcag244"]),
   ("target-size", ["wcag258"]),
   ("duplicate-id-active", ["wcag411"]),
   ("duplicate-id-aria", ["wcag411"]),
   ("table-duplicate-name", ["wcag131"])]

/-- `resolveWcagForLighthouseAudit`: priority chain — tags from the raw
artifacts, then the static table, then empty. -/
def resolveWcagForLighthouseAudit (auditId : String) (wcagTags : Option (List String)) :
    List String :=
  let fromTags := mapWcagTags (wcagTags.getD [])
  if fromTags ≠ [] then fromTags
  else
    match lookupStr LIGHTHOUSE_AUDIT_WCAG auditId with
    | some fromMap => if fromMap ≠ [] then mapWcagTags fromMap else []
    | none => []

/-- `node` field of an LHR audit detail item. -/
structure LhItemNode where
  selector : Option String
deriving Repr, DecidableEq

/-- LHR audit detail item. -/
structure LhAuditItem where
  selector : Option String
  snippet : Option String
  nodeLabel : Option String
  node : Option LhItemNode
deriving Repr, DecidableEq

/-- LHR audit record (`score` is `number | null`, modelled as `Option ℚ`;
`detailsItems` models `details?.items`, read as `audit.details?.items ?? []`). -/
structure LhAudit where
  id : String
  title : String
  description : Option String
  score : Option ℚ
  displayValue : Option String
  detailsItems : Option (List LhAuditItem)
deriving DecidableEq

/-- Reference to an audit from the accessibility category. -/
structure LhAuditRef where
  id : String
deriving Repr, DecidableEq

/-- LHR accessibility category. -/
structure LhCategory where
  score : ℚ
  auditRefs : Option (List LhAuditRef)
deriving DecidableEq

/-- The minimal LHR shape the engine reads (`audits` is the keyed record,
modelled as an association list). -/
structure LHR where
  accessibility : Option LhCategory
  audits : List (String × LhAudit)
deriving DecidableEq

/-- An element descriptor on an emitted Lighthouse issue. -/
structure LhIssueItem where
  selector : Option String
  snippet : Option String
  nodeLabel : Option String
deriving Repr, DecidableEq

/-- One emitted Lighthouse issue (one per failed audit). -/
structure LhIssue where
  id : String
  title : String
  description : String
  displayValue : Option String
  score : Option ℚ
  wcagTags : List String
  items : List LhIssueItem
deriving DecidableEq

/-- Normalized Lighthouse result (the IO timestamp field is omitted). -/
structure LighthouseResult where
  url : String
  score : ℚ
  issues : List LhIssue
deriving DecidableEq

/-- The issue pushed for one failed audit inside `normalizeLhrToResult`. -/
def mkLhIssue (artifactTagMap : List (String × List String)) (audit : LhAudit) : LhIssue :=
  let items := audit.detailsItems.getD []
  let rawTags := (lookupStr artifactTagMap audit.id).getD []
  let wcagTags := rawTags.filter isWcag3Tag
  ⟨audit.id, audit.title, audit.description.getD "", audit.displayValue, audit.score, wcagTags,
    items.map (fun item =>
      ⟨item.selector.orElse (fun _ => item.node.bind LhItemNode.selector), item.snippet,
        item.nodeLabel⟩)⟩

/-- `normalizeLhrToResult`: loop over the accessibility category's audit
references, skip unknown audits, keep exactly those whose score is `0` or
`null`, and emit one issue per kept audit. -/
def normalizeLhrToResult (url : String) (lhr : LHR)
    (artifactTagMap : List (String × List String)) : LighthouseResult :=
  let a11y := lhr.accessibility
  let score := match a11y with | some c => c.score | none => 0
  let auditRefs := (a11y.bind LhCategory.auditRefs).getD []
  let issues := auditRefs.foldl
    (fun acc ref =>
      match lookupStr lhr.audits ref.id with
      | none => acc
      | some audit =>
        if audit.score = some 0 ∨ audit.score = none then
          acc ++ [mkLhIssue artifactTagMap audit]
        else acc)
    []
  ⟨url, score, issues⟩

/-- The exit decision of the pipeline gate (`run-lighthouse-gate`):
`failed = result.issues.length`, exit 1 when positive, else exit 0. -/
def lighthouseGateExit (result : LighthouseResult) : Nat :=
  if result.issues.length > 0 then 1 else 0

/-! ## WAVE API scan error policy (`runWaveScan`) -/

/-- `status` object of the WAVE API response. -/
structure WaveApiStatus where
  success : Bool
  error : Option String
deriving Repr, DecidableEq

/-- One category count. -/
structure WaveCategoryCount where
  count : Nat
deriving Repr, DecidableEq

/-- The two categories the scan gate reads (accessed defensively with
`?.` in the source, hence the `Option`s). -/
structure WaveCategories where
  error : Option WaveCategoryCount
  contrast : Option WaveCategoryCount
deriving Repr, DecidableEq

/-- WAVE API response body (fields the scan reads). -/
structure WaveApiResponse where
  status : Option WaveApiStatus
  categories : Option WaveCategories
deriving Repr, DecidableEq

/-- The HTTP response of the single `fetch`. -/
structure HttpResponse where
  ok : Bool
  status : Nat
  statusText : String
deriving Repr, DecidableEq

/-- The failure modes of `runWaveScan`; a count failure carries the full
response payload (`err.waveResponse = data`). -/
inductive WaveScanError where
  | missingKey (msg : String)
  | httpError (msg : String)
  | apiError (msg : String)
  | countError (msg : String) (waveResponse : WaveApiResponse)
deriving Repr, DecidableEq

/-- `runWaveScan` as a function of its environment (the key), the HTTP
response, and the decoded body: throw on missing key, non-ok response,
unsuccessful API status, or a positive error/contrast count (the latter
carrying the payload); otherwise return the data. -/
def runWaveScan (key : Option String) (res : HttpResponse) (data : WaveApiResponse) :
    Except WaveScanError WaveApiResponse :=
  if (match key with | none => true | some k => jsTrim k = "") then
    .error (.missingKey "WAVE_API_KEY environment variable is required for WAVE API scans.")
  else if !res.ok then
    .error (.httpError ("WAVE API HTTP " ++ toString res.status ++ ": " ++ res.statusText))
  else if !((data.status.map WaveApiStatus.success).getD false) then
    .error (.apiError ((data.status.bind WaveApiStatus.error).getD "WAVE API request failed."))
  else
    let errorCount := ((data.categories.bind WaveCategories.error).map WaveCategoryCount.count).getD 0
    let contrastCount :=
      ((data.categories.bind WaveCategories.contrast).map WaveCategoryCount.count).getD 0
    if errorCount > 0 ∨ contrastCount > 0 then
      .error (.countError
        ("WAVE failures: errors=" ++ toString errorCount ++ ", contrast=" ++
          toString contrastCount ++ ". Require 0 for both.") data)
    else .ok data

/-! ## WAVE capture parser and Jira conversion (`wave-capture-parser`) -/

/-- The five WAVE sidebar tabs (`WaveCaptureTab`); `structureTab` renders
as `"Structure"`. -/
inductive WaveCaptureTab where
  | details
  | reference
  | tabOrder
  | structureTab
  | contrast
deriving Repr, DecidableEq

/-- The tab's string value in the source. -/
def WaveCaptureTab.label : WaveCaptureTab → String
  | .details => "Details"
  | .reference => "Reference"
  | .tabOrder => "Tab Order"
  | .structureTab => "Structure"
  | .contrast => "Contrast"

/-- A parsed WAVE capture finding. -/
structure WaveCaptureFinding where
  category : String
  description : String
  tab : WaveCaptureTab
  wcagRef : Option String
  elementInfo : Option String
deriving Repr, DecidableEq

/-- A WCAG reference entry (`why` + criteria list). -/
structure WcagRef where
  why : String
  criteria : List String
deriving Repr, DecidableEq

/-- `WAVE_WCAG_REF`: normalized phrase → explanation and criteria, in
source order (the lookup scans entries in insertion order). -/
def WAVE_WCAG_REF : List (String × WcagRef) :=
  [("noscript element",
    ⟨"Content inside <noscript> is only shown when JavaScript is off. If the page relies on JS, users who disable it or use assistive tech that does not run JS may get no equivalent content or functionality.",
     ["WCAG 2.1.1 Keyboard (Level A)", "WCAG 1.1.1 Non-text Content (Level A)"]⟩),
   ("missing form label",
    ⟨"Inputs without an associated <label> or aria-label are not announced properly by screen readers; users do not know what to enter.",
     ["WCAG 1.3.1 Info and Relationships (Level A)", "WCAG 2.4.6 Headings and Labels (Level AA)", "WCAG 3.3.2 Labels or Instructions (Level A)"]⟩),
   ("empty form label",
    ⟨"A label exists but has no text, so it provides no usable name for the control.",
     ["WCAG 1.3.1 Info and Relationships (Level A)", "WCAG 3.3.2 Labels or Instructions (Level A)"]⟩),
   ("missing alternative text",
    ⟨"Images without alt (or appropriate ARIA) are invisible to screen reader users.",
     ["WCAG 1.1.1 Non-text Content (Level A)"]⟩),
   ("very low contrast",
    ⟨"Text that does not meet contrast ratios is hard or impossible to read for people with low vision or in poor light.",
     ["WCAG 1.4.3 Contrast (Minimum) (Level AA)"]⟩),
   ("language missing",
    ⟨"Missing or wrong lang on <html> prevents correct pronunciation and language switching for screen readers.",
     ["WCAG 3.1.1 Language of Page (Level A)"]⟩),
   ("empty heading",
    ⟨"Headings with no content do not provide structure and can confuse navigation.",
     ["WCAG 1.3.1 Info and Relationships (Level A)", "WCAG 2.4.6 Headings and Labels (Level AA)"]⟩),
   ("empty button",
    ⟨"Buttons with no visible or accessible name cannot be understood or used reliably.",
     ["WCAG 2.4.4 Link Purpose (Level A)", "WCAG 4.1.2 Name, Role, Value (Level A)"]⟩),
   ("empty link",
    ⟨"Links with no visible or accessible name cannot be understood or used reliably.",
     ["WCAG 2.4.4 Link Purpose (Level A)", "WCAG 4.1.2 Name, Role, Value (Level A)"]⟩),
   ("possible heading",
    ⟨"Text that looks like a heading but is not marked with heading elements breaks structure and skip navigation.",
     ["WCAG 1.3.1 Info and Relationships (Level A)", "WCAG 2.4.6 Headings and Labels (Level AA)"]⟩),
   ("html5 video or audio",
    ⟨"Video or audio without captions, transcripts, or audio description excludes deaf/hard-of-hearing and blind users.",
     ["WCAG 1.2.1 Prerecorded Audio-only and Video-only (Level A)", "WCAG 1.2.2 Captions (Level A)"]⟩),
   ("aria",
    ⟨"ARIA is used to expose roles, names, and states. If wrong or missing, assistive tech gets incorrect or no information.",
     ["WCAG 4.1.2 Name, Role, Value (Level A)"]⟩),
   ("aria label",
    ⟨"ARIA labels must accurately name controls and regions so assistive technologies can announce them.",
     ["WCAG 4.1.2 Name, Role, Value (Level A)"]⟩),
   ("aria expanded",
    ⟨"aria-expanded must reflect the current state so users know whether content is expanded or collapsed.",
     ["WCAG 4.1.2 Name, Role, Value (Level A)"]⟩),
   ("aria popup",
    ⟨"Popup triggers must expose state and role so users know when a popup is open.",
     ["WCAG 4.1.2 Name, Role, Value (Level A)"]⟩),
   ("aria tabindex",
    ⟨"Focusable elements must be keyboard operable and expose focus order.",
     ["WCAG 2.1.1 Keyboard (Level A)", "WCAG 4.1.2 Name, Role, Value (Level A)"]⟩),
   ("aria hidden",
    ⟨"Content marked aria-hidden is hidden from assistive tech; ensure nothing critical is hidden without an equivalent.",
     ["WCAG 4.1.2 Name, Role, Value (Level A)"]⟩),
   ("contrast",
    ⟨"Text and images of text must meet minimum contrast ratios for readability.",
     ["WCAG 1.4.3 Contrast (Minimum) (Level AA)"]⟩),
   ("heading level",
    ⟨"Headings define structure and allow navigation by heading. Wrong or missing hierarchy confuses users.",
     ["WCAG 1.3.1 Info and Relationships (Level A)", "WCAG 2.4.6 Headings and Labels (Level AA)"]⟩),
   ("main content",
    ⟨"A main landmark lets users jump to primary content; missing or duplicate main reduces usability.",
     ["WCAG 1.3.1 Info and Relationships (Level A)", "WCAG 2.4.1 Bypass Blocks (Level A)"]⟩),
   ("navigation",
    ⟨"Nav landmarks expose navigation regions for skip and region navigation.",
     ["WCAG 2.4.1 Bypass Blocks (Level A)"]⟩),
   ("skip link",
    ⟨"A skip link lets keyboard users bypass repeated content; missing or broken skip reduces efficiency.",
     ["WCAG 2.4.1 Bypass Blocks (Level A)"]⟩),
   ("unordered list",
    ⟨"Lists should be marked with ul/ol so structure is exposed to assistive tech.",
     ["WCAG 1.3.1 Info and Relationships (Level A)"]⟩),
   ("tab order",
    ⟨"Verify keyboard tab order matches a logical sequence and all interactive elements are reachable.",
     ["WCAG 2.4.3 Focus Order (Level A)", "WCAG 2.1.1 Keyboard (Level A)"]⟩)]

/-- `getWcagRefForFinding`: scan the table in order matching against the
normalized `category + ' ' + description` (or the description alone), then
apply the category/keyword fallbacks. -/
def getWcagRefForFinding (description category : String) : Option WcagRef :=
  let normalized := jsToLower (category ++ " " ++ description)
  match WAVE_WCAG_REF.find?
      (fun e => jsIncludes normalized e.1 || jsIncludes (jsToLower description) e.1) with
  | some e => some e.2
  | none =>
    if jsIncludes (jsToUpper category) "CONTRAST" then lookupStr WAVE_WCAG_REF "contrast"
    else if jsIncludes (jsToUpper category) "ARIA" then lookupStr WAVE_WCAG_REF "aria"
    else if jsIncludes (jsToLower description) "heading" then
      lookupStr WAVE_WCAG_REF "heading level"
    else if jsIncludes (jsToLower description) "label" then
      lookupStr WAVE_WCAG_REF "missing form label"
    else if jsIncludes (jsToLower description) "alt" || jsIncludes (jsToLower description) "image" then
      lookupStr WAVE_WCAG_REF "missing alternative text"
    else none

/-- `wcagRefFor`: the criteria joined with `' | '`, when a reference matches. -/
def wcagRefFor (category description : String) : Option String :=
  (getWcagRefForFinding description category).map
    (fun ref => String.intercalate " | " ref.criteria)

/-- `isActionableFinding`: Errors, Contrast Errors and Alerts are
actionable; Features, Structural Elements and ARIA are informational. -/
def isActionableFinding (category : String) : Bool :=
  let c := jsToUpper category
  jsIncludes c "ERROR" || jsIncludes c "CONTRAST" || jsIncludes c "ALERT"

/-- `categoryToTab`: keyword classification of a category into a tab. -/
def categoryToTab (category : String) : WaveCaptureTab :=
  let c := jsToUpper category
  if jsIncludes c "CONTRAST" then .contrast
  else if jsIncludes c "STRUCTURAL" || jsIncludes c "HEADING" || jsIncludes c "STRUCTURE" then
    .structureTab
  else if jsIncludes c "ARIA" then .details
  else if jsIncludes c "ERROR" || jsIncludes c "ALERT" then .details
  else if jsIncludes c "FEATURE" then .structureTab
  else .details

/-! ### The alt-text grammar `ALT_CATEGORY_REGEX`

`^(ERRORS?|CONTRAST\s+ERRORS?|ALERTS?|FEATURES?|STRUCTURAL\s+ELEMENTS?|ARIA):\s*(.+)$`
(case-insensitive, no `m`/`s` flags), including the regex engine's
backtracking behaviour: the optional `S?` and the `\s*` give back
characters when the rest of the pattern fails, `.` excludes the four
line-terminator characters, and `$` only matches at the very end. -/

/-- A character `.` can match (no `m`/`s` flags). -/
def dotOk (c : Char) : Bool :=
  !(c = '\n' || c = '\r' || c.toNat = 0x2028 || c.toNat = 0x2029)

/-- Match `\s*(.+)$` against the rest of the string, returning group 2:
greedily consume whitespace, backtracking until the remainder is a
nonempty run of `.`-matchable characters ending the string. -/
def wsTailMatch : List Char → Option (List Char)
  | [] => none
  | c :: cs =>
    if jsIsWs c then
      match wsTailMatch cs with
      | some r => some r
      | none => if (c :: cs).all dotOk then some (c :: cs) else none
    else if (c :: cs).all dotOk then some (c :: cs) else none

/-- Strip a literal pattern case-insensitively, returning the actually
matched characters and the rest. -/
def stripCI : List Char → List Char → Option (List Char × List Char)
  | [], rest => some ([], rest)
  | _ :: _, [] => none
  | p :: ps, c :: cs =>
    if jsLowerChar c = jsLowerChar p then
      match stripCI ps cs with
      | some (m, rest) => some (c :: m, rest)
      | none => none
    else none

/-- Candidates (in backtracking priority order) for `WORDS?`: the word
with its optional trailing `s`/`S`, greedy first. -/
def optSCandidates (word : String) (input : List Char) : List (List Char × List Char) :=
  match stripCI word.data input with
  | none => []
  | some (m, rest) =>
    match rest with
    | c :: cs =>
      if jsLowerChar c = 's' then [(m ++ [c], cs), (m, rest)] else [(m, rest)]
    | [] => [(m, rest)]

/-- Candidates for `W1\s+W2S?`: the `\s+` run is forced (the second word
starts with a non-whitespace letter, so shorter runs always fail). -/
def twoWordCandidates (w1 w2 : String) (input : List Char) : List (List Char × List Char) :=
  match stripCI w1.data input with
  | none => []
  | some (m1, rest1) =>
    let run := rest1.takeWhile jsIsWs
    if run = [] then []
    else
      (optSCandidates w2 (rest1.drop run.length)).map
        (fun x => (m1 ++ run ++ x.1, x.2))

/-- Try each category candidate in order; succeed on the first one whose
continuation `:\s*(.+)$` matches, returning the raw groups 1 and 2. -/
def pickAltCandidate : List (List Char × List Char) → Option (String × String)
  | [] => none
  | (m, rest) :: more =>
    match rest with
    | ':' :: after =>
      (match wsTailMatch after with
       | some desc => some (⟨m⟩, ⟨desc⟩)
       | none => pickAltCandidate more)
    | _ => pickAltCandidate more

/-- `ALT_CATEGORY_REGEX.exec(alt)`: raw groups 1 (category) and 2
(description), or `none` when the grammar does not match. -/
def matchAltCategory (alt : String) : Option (String × String) :=
  let input := alt.data
  pickAltCandidate
    (optSCandidates "ERROR" input ++
     twoWordCandidates "CONTRAST" "ERROR" input ++
     optSCandidates "ALERT" input ++
     optSCandidates "FEATURE" input ++
     twoWordCandidates "STRUCTURAL" "ELEMENT" input ++
     (match stripCI "ARIA".data input with | some x => [x] | none => []))

/-- `elementHintFromDescription`: keyword-based generic element hint. -/
def elementHintFromDescription (description : String) : String :=
  let d := jsToLower description
  if jsIncludes d "noscript" then "<noscript>"
  else if jsIncludes d "heading level 1" || jsIncludes d "h1" then "<h1>"
  else if jsIncludes d "heading level 2" || jsIncludes d "h2" then "<h2>"
  else if jsIncludes d "heading level 3" || jsIncludes d "h3" then "<h3>"
  else if jsIncludes d "heading level 4" || jsIncludes d "h4" then "<h4>"
  else if jsIncludes d "heading level 5" || jsIncludes d "h5" then "<h5>"
  else if jsIncludes d "heading level 6" || jsIncludes d "h6" then "<h6>"
  else if jsIncludes d "navigation" then "<nav>"
  else if jsIncludes d "header" then "<header>"
  else if jsIncludes d "footer" then "<footer>"
  else if jsIncludes d "main" then "<main>"
  else if jsIncludes d "unordered list" || jsIncludes d "ul" then "<ul>"
  else if jsIncludes d "ordered list" || jsIncludes d "ol" then "<ol>"
  else if jsIncludes d "list item" || jsIncludes d "li" then "<li>"
  else if jsIncludes d "button" then "<button>"
  else if jsIncludes d "link" || jsIncludes d "skip link" then "<a>"
  else if jsIncludes d "missing form label" || jsIncludes d "missing label" then
    "<input> or <select> (missing associated <label>)"
  else if jsIncludes d "empty form label" then "<input> / <select> (empty or ineffective <label>)"
  else if jsIncludes d "multiple form labels" then "<input> / <select> (multiple <label>s)"
  else if jsIncludes d "missing alternative" || jsIncludes d "alt" then
    "<img> (missing or empty alt)"
  else if jsIncludes d "aria label" then "element with aria-label"
  else if jsIncludes d "aria expanded" then "element with aria-expanded"
  else if jsIncludes d "aria " || jsIncludes d "role=" then "element with ARIA role/attribute"
  else if jsIncludes d "language" || jsIncludes d "lang" then "element with lang/hreflang"
  else if jsIncludes d "skipped heading" then "<h2>–<h6> (heading level skipped in sequence)"
  else if jsIncludes d "redundant link" then "<a> (redundant with adjacent link)"
  else if jsIncludes d "empty button" then "<button>"
  else description

/-- The loop body of `parseWaveCaptureHtml` over the successive regex hits.
One hit is the captured alt text together with the element snippet
recovered from the surrounding markup by `getElementInfoAfterIcon`
(boundary input here: it scans raw HTML around the icon's position). -/
def parseWaveIconsGo : List String → List (String × Option String) → List WaveCaptureFinding
  | _, [] => []
  | seen, (altRaw, snippet) :: more =>
    let alt := jsTrim altRaw
    if alt = "" || seen.contains alt then parseWaveIconsGo seen more
    else
      let m := matchAltCategory alt
      let category := match m with | some x => jsTrim x.1 | none => "Other"
      let description := match m with | some x => jsTrim x.2 | none => alt
      let tab := categoryToTab category
      let wcagRef := wcagRefFor category description
      let elementInfo := some ((snippet.getD (elementHintFromDescription description)))
      ⟨category, description, tab, wcagRef, elementInfo⟩ ::
        parseWaveIconsGo (seen ++ [alt]) more

/-- `parseWaveCaptureHtml` on the list of icon hits found by
`WAVE_ICON_ALT_REGEX` (captured alt text and recovered snippet per hit):
skip empty and already-seen trimmed alt texts, parse the grammar with the
`'Other'`/whole-alt fallback, classify the tab and WCAG reference. -/
def parseWaveCaptureIcons (icons : List (String × Option String)) : List WaveCaptureFinding :=
  parseWaveIconsGo [] icons

/-- A produced Jira issue. -/
structure WaveJiraIssue where
  tab : WaveCaptureTab
  summary : String
  description : String
  jiraText : String
  actionable : Bool
  wcagNumber : Option String
  wcagCause : Option String
  actual : String
  expectedFix : Option String
  elements : Option String
deriving Repr, DecidableEq

/-- `byTab.get(f.tab) ?? []` followed by `push` and `set`: append to the
existing bucket, else add a new bucket at the end (JS `Map` preserves
first-insertion order). -/
def upsertTab (m : List (WaveCaptureTab × List WaveCaptureFinding)) (k : WaveCaptureTab)
    (f : WaveCaptureFinding) : List (WaveCaptureTab × List WaveCaptureFinding) :=
  if m.any (fun e => e.1 = k) then
    m.map (fun e => if e.1 = k then (e.1, e.2 ++ [f]) else e)
  else m ++ [(k, [f])]

/-- `byTab.has(k)`. -/
def hasTab (m : List (WaveCaptureTab × List WaveCaptureFinding)) (k : WaveCaptureTab) : Bool :=
  m.any (fun e => e.1 = k)

/-- The `refSet`: distinct truthy `wcagRef`s of all findings, in first
occurrence order (a JS `Set` preserves insertion order). -/
def collectRefSet (findings : List WaveCaptureFinding) : List String :=
  findings.foldl
    (fun acc f =>
      match f.wcagRef with
      | some r => if r ≠ "" && !acc.contains r then acc ++ [r] else acc
      | none => acc)
    []

/-- The issue built for one finding in the output loop of
`findingsToJiraIssues` (`tab` is the bucket key; `actionable` looks at the
finding's own tab). -/
def buildWaveJiraIssue (sourceUrl : String) (pageTitle : Option String)
    (tab : WaveCaptureTab) (f : WaveCaptureFinding) : WaveJiraIssue :=
  let actionable :=
    if f.tab = .tabOrder then true
    else if f.tab = .reference then false
    else isActionableFinding f.category
  let summary := "[WAVE][" ++ tab.label ++ "] " ++ jsSlice0 f.description 80 ++
    (if f.description.length > 80 then "…" else "")
  let wcagRef := getWcagRefForFinding f.description f.category
  let whyBlock :=
    match wcagRef with
    | some ref =>
      String.intercalate "\n"
        ["", "*Why this fails (WCAG 2.2 AA):*", ref.why, "",
         "*Fails:* " ++ String.intercalate " | " ref.criteria]
    | none =>
      match f.wcagRef with
      | some r => if r ≠ "" then "\n\n*Fails:* " ++ r else ""
      | none => ""
  let bodyLines :=
    ["*Source:* " ++ sourceUrl,
     (match pageTitle with | some t => if t ≠ "" then "*Page:* " ++ t else "" | none => ""),
     "*WAVE tab:* " ++ tab.label,
     "*Category:* " ++ f.category,
     "*Description:* " ++ f.description,
     (match f.elementInfo with | some e => if e ≠ "" then "*Element(s):* " ++ e else "" | none => ""),
     whyBlock,
     "",
     "h3. Reproduction",
     "(Steps to reproduce and verify the issue.)",
     "# Run the WAVE browser extension on the page.",
     "# Open the WAVE sidebar → " ++ tab.label ++ " tab.",
     "# Locate this finding and fix the underlying cause (see \"Why this fails\" and WCAG link).",
     "# Re-run WAVE to confirm the issue is resolved."]
  let body := String.intercalate "\n" (bodyLines.filter (fun s => s ≠ ""))
  let bodyWithStatus :=
    if actionable then body
    else "*Status:* Informational (no action required unless incorrect or missing)\n\n" ++ body
  let jiraText := summary ++ "\n\n" ++ bodyWithStatus
  ⟨tab, summary, bodyWithStatus, jiraText, actionable,
    wcagRef.map (fun r => String.intercalate ", " r.criteria),
    wcagRef.map WcagRef.why,
    f.description,
    wcagRef.map (fun r => r.why ++ " Fix per WCAG: " ++ String.intercalate ", " r.criteria ++ "."),
    f.elementInfo⟩

/-- The synthesized Tab Order placeholder finding. -/
def tabOrderPlaceholder : WaveCaptureFinding :=
  ⟨"Tab Order",
   "Manual check: Verify keyboard tab order matches visual order and all interactive elements are reachable.",
   .tabOrder, none, none⟩

/-- `findingsToJiraIssues`: optionally filter to actionable categories,
group by tab (insertion order), always ensure a Tab Order manual-check
bucket, add a Reference summary bucket when any finding carries a WCAG
reference, then emit one issue per bucketed finding. -/
def findingsToJiraIssues (findings : List WaveCaptureFinding) (sourceUrl : String)
    (pageTitle : Option String) (actionableOnly : Bool) : List WaveJiraIssue :=
  let list :=
    if actionableOnly then findings.filter (fun f => isActionableFinding f.category)
    else findings
  let byTab := list.foldl (fun m f => upsertTab m f.tab f) []
  let byTab :=
    if hasTab byTab .tabOrder then byTab
    else byTab ++ [(.tabOrder, [tabOrderPlaceholder])]
  let refSet := collectRefSet findings
  let byTab :=
    if refSet.length > 0 && !hasTab byTab .reference then
      byTab ++ [(.reference,
        [⟨"Reference", String.intercalate " | " refSet, .reference,
          some (String.intercalate "; " refSet), none⟩])]
    else byTab
  byTab.flatMap (fun e => e.2.map (buildWaveJiraIssue sourceUrl pageTitle e.1))

/-- Folding the per-node body of `walk` over a list of visited
`(role, name, description)` entries (specification-side view of the walk
as a fold over its traversal). -/
def stepsFold (l : List (Option String × Option String × Option String))
    (st : A11yTreeInventory × List A11yTreeIssue) :
    A11yTreeInventory × List A11yTreeIssue :=
  l.foldl (fun st x => stepWalk x.1 x.2.1 x.2.2 st) st

/-! # Theorems -/

/-! ## Generic list helpers -/

theorem flatMap_congr_of_mem {α β : Type} {l : List α} {f g : α → List β}
    (h : ∀ a ∈ l, f a = g a) : l.flatMap f = l.flatMap g := by
  induction l with
  | nil => rfl
  | cons a l ih =>
    simp only [List.flatMap_cons]
    rw [h a (by simp), ih (fun a ha => h a (by simp [ha]))]

theorem foldl_append_singleton_eq {α β : Type} (p : α → Prop) [DecidablePred p] (f : α → β) :
    ∀ (l : List α) (acc : List β),
      l.foldl (fun acc el => if p el then acc ++ [f el] else acc) acc =
        acc ++ (l.filter (fun el => decide (p el))).map f := by
  intro l
  induction l with
  | nil => intro acc; simp
  | cons a l ih =>
    intro acc
    by_cases h : p a
    · simp [h, ih, List.filter_cons]
    · simp [h, ih, List.filter_cons]

theorem foldl_add_nodes (g : AxeItem → Nat) :
    ∀ (l : List AxeItem) (a : Nat),
      l.foldl (fun s i => s + g i) a = a + (l.map g).sum := by
  intro l
  induction l with
  | nil => intro a; simp
  | cons x l ih => intro a; simp [ih, Nat.add_assoc]

theorem foldl_filterMap_eq {α β : Type} (g : α → Option β) :
    ∀ (l : List α) (acc : List β),
      l.foldl
          (fun acc a => match g a with | none => acc | some b => acc ++ [b]) acc =
        acc ++ l.filterMap g := by
  intro l
  induction l with
  | nil => intro acc; simp
  | cons a l ih =>
    intro acc
    cases h : g a with
    | none => simp [h, ih]
    | some b => simp [h, ih]

/-! ## C3: Axe reporter fan-out -/

theorem axeItems_filter_actionable (axeViolations axeIncomplete : List AxeResult) (b : Bool) :
    (axeItems axeViolations axeIncomplete b).filter (fun i => i.actionable) =
      axeViolations.map (fun v => ⟨v, true⟩) := by
  cases b with
  | true =>
    have h : axeItems axeViolations axeIncomplete true =
        axeViolations.map (fun v => ⟨v, true⟩) := rfl
    rw [h, List.filter_map]
    simp [Function.comp_def]
  | false =>
    have h : axeItems axeViolations axeIncomplete false =
        axeViolations.map (fun v => ⟨v, true⟩) ++ axeIncomplete.map (fun i => ⟨i, false⟩) := rfl
    rw [h, List.filter_append, List.filter_map, List.filter_map]
    simp [Function.comp_def]

/-- C3: in both the all-issues and the actionable-only view of the Axe
report, the displayed count of actionable findings is the sum of
affected-node counts over the violation entries, and the actionable
findings fan out exactly over the violations' nodes (so a violation with
zero nodes contributes zero findings). -/
theorem axe_actionable_fanout (axeViolations axeIncomplete : List AxeResult) (b : Bool) :
    axeActionableCount (axeItems axeViolations axeIncomplete b) =
        (axeViolations.map (fun v => v.nodes.length)).sum
      ∧ ((axeItems axeViolations axeIncomplete b).filter (fun i => i.actionable)).flatMap
            (fun i => i.result.nodes) =
          axeViolations.flatMap (fun v => v.nodes) := by
  constructor
  · rw [axeActionableCount, axeItems_filter_actionable]
    rw [foldl_add_nodes (fun i => i.result.nodes.length)]
    simp [List.map_map, Function.comp_def]
  · rw [axeItems_filter_actionable]
    rw [List.flatMap_map]

/-! ## C5: Lighthouse WCAG resolution priority chain -/

/-- C5: the resolver uses the recognizable artifact tags when any exist;
only otherwise does it consult the static audit-id table, and only when
that also fails does it return the empty list. -/
theorem resolveWcag_priority_chain (auditId : String) (tags : List String) :
    ((∃ tg ∈ tags, isWcag3Tag tg) →
        resolveWcagForLighthouseAudit auditId (some tags) = mapWcagTags tags ∧
          mapWcagTags tags ≠ [])
      ∧ ((∀ tg ∈ tags, ¬ isWcag3Tag tg) →
          resolveWcagForLighthouseAudit auditId (some tags) =
            (match lookupStr LIGHTHOUSE_AUDIT_WCAG auditId with
             | some fromMap => mapWcagTags fromMap
             | none => []))
      ∧ (resolveWcagForLighthouseAudit auditId none =
          (match lookupStr LIGHTHOUSE_AUDIT_WCAG auditId with
           | some fromMap => mapWcagTags fromMap
           | none => [])) := by
  refine ⟨?_, ?_, ?_⟩
  · rintro ⟨tg, htg, hw⟩
    have hne : mapWcagTags tags ≠ [] := by
      simp only [mapWcagTags]
      intro hcon
      rw [List.map_eq_nil_iff, List.filter_eq_nil_iff] at hcon
      exact hcon tg htg hw
    exact ⟨by simp [resolveWcagForLighthouseAudit, hne], hne⟩
  · intro hall
    have hz : mapWcagTags tags = [] := by
      simp only [mapWcagTags, List.map_eq_nil_iff, List.filter_eq_nil_iff]
      exact hall
    simp only [resolveWcagForLighthouseAudit, Option.getD_some, hz, ne_eq,
      not_true_eq_false, if_false]
    cases h : lookupStr LIGHTHOUSE_AUDIT_WCAG auditId with
    | none => simp
    | some fromMap =>
      by_cases hm : fromMap = []
      · simp [hm, mapWcagTags]
      · simp [hm]
  · simp only [resolveWcagForLighthouseAudit, Option.getD_none]
    have hz : mapWcagTags [] = [] := rfl
    simp only [hz, ne_eq, not_true_eq_false, if_false]
    cases h : lookupStr LIGHTHOUSE_AUDIT_WCAG auditId with
    | none => simp
    | some fromMap =>
      by_cases hm : fromMap = []
      · simp [hm, mapWcagTags]
      · simp [hm]

/-- Witness for C5: a recognizable raw tag wins over the table; with no
recognizable raw tag the table entry is used; with neither, the result is
empty. -/
theorem resolveWcag_priority_chain_witness :
    (resolveWcagForLighthouseAudit "color-contrast" (some ["wcag143", "best-practice"]) =
          mapWcagTags ["wcag143", "best-practice"] ∧
        mapWcagTags ["wcag143", "best-practice"] ≠ []) ∧
      resolveWcagForLighthouseAudit "bypass" (some ["cat.navigation"]) =
        (match lookupStr LIGHTHOUSE_AUDIT_WCAG "bypass" with
         | some fromMap => mapWcagTags fromMap
         | none => []) ∧
      resolveWcagForLighthouseAudit "totally-unknown-audit" none =
        (match lookupStr LIGHTHOUSE_AUDIT_WCAG "totally-unknown-audit" with
         | some fromMap => mapWcagTags fromMap
         | none => []) :=
  ⟨(resolveWcag_priority_chain "color-contrast" ["wcag143", "best-practice"]).1
      ⟨"wcag143", by decide, by decide⟩,
    (resolveWcag_priority_chain "bypass" ["cat.navigation"]).2.1 (by decide),
    (resolveWcag_priority_chain "totally-unknown-audit" []).2.2⟩

/-! ## C7: Axe target-size post-check -/

theorem measureSmallTargets_eq_filter (elements : List PageElement) :
    measureSmallTargets elements =
      (elements.filter
          (fun el =>
            decide (el.width < MIN_TARGET_SIZE) || decide (el.height < MIN_TARGET_SIZE))).map
        (fun el => ⟨elementSelector el, jsRound el.width, jsRound el.height⟩) := by
  have h := foldl_append_singleton_eq
    (fun el => el.width < MIN_TARGET_SIZE ∨ el.height < MIN_TARGET_SIZE)
    (fun el => (⟨elementSelector el, jsRound el.width, jsRound el.height⟩ : SmallTarget))
    elements []
  rw [measureSmallTargets]
  simpa using h

/-- C7: after the engine's native analysis, the target-size check leaves
the violation list unchanged when no interactive element is undersized,
and otherwise appends exactly one synthesized `target-size-minimum`
violation (fixed severity and WCAG tags) whose nodes are the undersized
elements, one node per element. -/
theorem axe_target_size_check (axeViolations : List AxeResult) (elements : List PageElement) :
    ((∀ el ∈ elements, ¬(el.width < MIN_TARGET_SIZE ∨ el.height < MIN_TARGET_SIZE)) →
        appendTargetSizeCheck axeViolations elements = axeViolations)
      ∧ ((∃ el ∈ elements, el.width < MIN_TARGET_SIZE ∨ el.height < MIN_TARGET_SIZE) →
          appendTargetSizeCheck axeViolations elements =
            axeViolations ++ [targetSizeViolation (measureSmallTargets elements)])
      ∧ (targetSizeViolation (measureSmallTargets elements)).nodes =
          (measureSmallTargets elements).map (fun v => ⟨"", [v.selector], [], [], []⟩)
      ∧ (targetSizeViolation (measureSmallTargets elements)).id = "target-size-minimum"
      ∧ (targetSizeViolation (measureSmallTargets elements)).impact = some "serious"
      ∧ (targetSizeViolation (measureSmallTargets elements)).tags =
          ["wcag2aa", "wcag22aa", "cat-target-size"] := by
  have hempty : (∀ el ∈ elements, ¬(el.width < MIN_TARGET_SIZE ∨ el.height < MIN_TARGET_SIZE)) →
      measureSmallTargets elements = [] := by
    intro h
    rw [measureSmallTargets_eq_filter, List.map_eq_nil_iff, List.filter_eq_nil_iff]
    intro el hel
    simpa using h el hel
  refine ⟨?_, ?_, rfl, rfl, rfl, rfl⟩
  · intro h
    rw [appendTargetSizeCheck, hempty h]
    simp
  · rintro ⟨el, hel, hlt⟩
    have hne : measureSmallTargets elements ≠ [] := by
      rw [measureSmallTargets_eq_filter]
      simp only [ne_eq, List.map_eq_nil_iff, List.filter_eq_nil_iff]
      push_neg
      refine ⟨el, hel, ?_⟩
      simpa using hlt
    rw [appendTargetSizeCheck]
    rw [if_pos (by exact List.length_pos_of_ne_nil hne)]

/-- Witness for C7: an all-large page leaves the violations untouched; a
20×30 link triggers the synthesized entry. -/
theorem axe_target_size_check_witness :
    (appendTargetSizeCheck [] [⟨"A", "", "", 30, 40⟩] = []) ∧
      appendTargetSizeCheck [] [⟨"A", "", "", 20, 30⟩] =
        [] ++ [targetSizeViolation (measureSmallTargets [⟨"A", "", "", 20, 30⟩])] :=
  ⟨(axe_target_size_check [] [⟨"A", "", "", 30, 40⟩]).1
      (by intro el hel; simp only [List.mem_singleton] at hel; subst hel; decide),
    (axe_target_size_check [] [⟨"A", "", "", 20, 30⟩]).2.1
      ⟨⟨"A", "", "", 20, 30⟩, by simp, Or.inl (by decide)⟩⟩

/-! ## C8: WAVE scan error policy -/

/-- C8: the WAVE scan fails exactly on a missing/blank key, a non-success
HTTP response, an unsuccessful API status, or a positive error/contrast
count — and in the count case the thrown error still carries the complete
response payload. -/
theorem wave_scan_fail_iff (key : Option String) (res : HttpResponse) (data : WaveApiResponse) :
    ((∃ e, runWaveScan key res data = .error e) ↔
        ((key.map jsTrim).getD "" = "" ∨ res.ok = false ∨
          (data.status.map WaveApiStatus.success).getD false = false ∨
          0 < ((data.categories.bind WaveCategories.error).map WaveCategoryCount.count).getD 0 ∨
          0 < ((data.categories.bind WaveCategories.contrast).map WaveCategoryCount.count).getD 0))
      ∧ ((key.map jsTrim).getD "" ≠ "" → res.ok = true →
          (data.status.map WaveApiStatus.success).getD false = true →
          (0 < ((data.categories.bind WaveCategories.error).map WaveCategoryCount.count).getD 0 ∨
            0 < ((data.categories.bind WaveCategories.contrast).map
              WaveCategoryCount.count).getD 0) →
          ∃ msg, runWaveScan key res data = .error (.countError msg data)) := by
  have hkey : (match key with | none => true | some k => decide (jsTrim k = "")) = true ↔
      (key.map jsTrim).getD "" = "" := by
    cases key <;> simp
  constructor
  · unfold runWaveScan
    by_cases h1 : (key.map jsTrim).getD "" = ""
    · rw [if_pos (by cases key with
        | none => rfl
        | some k => simpa using h1)]
      exact iff_of_true ⟨_, rfl⟩ (Or.inl h1)
    · rw [if_neg (by cases key with
        | none => simp at h1
        | some k => simpa using h1)]
      by_cases h2 : res.ok
      · rw [if_neg (by simp [h2])]
        by_cases h3 : (data.status.map WaveApiStatus.success).getD false = true
        · rw [if_neg (by simp [h3])]
          by_cases h4 :
              0 < ((data.categories.bind WaveCategories.error).map
                  WaveCategoryCount.count).getD 0 ∨
                0 < ((data.categories.bind WaveCategories.contrast).map
                  WaveCategoryCount.count).getD 0
          · rw [if_pos h4]
            exact iff_of_true ⟨_, rfl⟩ (Or.inr (Or.inr (Or.inr h4)))
          · rw [if_neg h4]
            push_neg at h4
            refine iff_of_false (by simp) ?_
            rintro (hA | hB | hC | hD | hE)
            · exact h1 hA
            · simp [hB] at h2
            · simp [h3] at hC
            · omega
            · omega
        · rw [if_pos (by simpa using h3)]
          exact iff_of_true ⟨_, rfl⟩
            (Or.inr (Or.inr (Or.inl (by simpa using h3))))
      · rw [if_pos (by simpa using h2)]
        exact iff_of_true ⟨_, rfl⟩ (Or.inr (Or.inl (by simpa using h2)))
  · intro h1 h2 h3 h4
    unfold runWaveScan
    rw [if_neg (by cases key with
      | none => simp at h1
      | some k => simpa using h1)]
    rw [if_neg (by simp [h2])]
    rw [if_neg (by simp [h3])]
    rw [if_pos h4]
    exact ⟨_, rfl⟩

/-- Witness for C8: a scan whose body reports 3 errors fails with the
count error carrying the full payload. -/
theorem wave_scan_fail_iff_witness :
    ∃ msg,
      runWaveScan (some "key123") ⟨true, 200, "OK"⟩
          ⟨some ⟨true, none⟩, some ⟨some ⟨3⟩, some ⟨0⟩⟩⟩ =
        .error (.countError msg ⟨some ⟨true, none⟩, some ⟨some ⟨3⟩, some ⟨0⟩⟩⟩) :=
  (wave_scan_fail_iff (some "key123") ⟨true, 200, "OK"⟩
      ⟨some ⟨true, none⟩, some ⟨some ⟨3⟩, some ⟨0⟩⟩⟩).2
    (by decide) rfl rfl (Or.inl (by decide))

/-! ## C4 and C9: Lighthouse normalization and the CI gate -/

theorem normalize_issues_eq_filterMap (url : String) (lhr : LHR)
    (artifactTagMap : List (String × List String)) :
    (normalizeLhrToResult url lhr artifactTagMap).issues =
      ((lhr.accessibility.bind LhCategory.auditRefs).getD []).filterMap
        (fun ref =>
          match lookupStr lhr.audits ref.id with
          | none => none
          | some audit =>
            if audit.score = some 0 ∨ audit.score = none then
              some (mkLhIssue artifactTagMap audit)
            else none) := by
  have h := foldl_filterMap_eq
    (fun (ref : LhAuditRef) =>
      match lookupStr lhr.audits ref.id with
      | none => none
      | some audit =>
        if audit.score = some 0 ∨ audit.score = none then
          some (mkLhIssue artifactTagMap audit)
        else none)
    ((lhr.accessibility.bind LhCategory.auditRefs).getD []) []
  rw [List.nil_append] at h
  show ((lhr.accessibility.bind LhCategory.auditRefs).getD []).foldl _ [] = _
  rw [← h]
  apply congrArg (fun f => List.foldl f ([] : List LhIssue) _)
  funext acc ref
  cases hl : lookupStr lhr.audits ref.id with
  | none => simp [hl]
  | some audit =>
    by_cases hs : audit.score = some 0 ∨ audit.score = none
    · simp [hl, hs]
    · simp [hl, hs]

/-- C4: the adapter emits an issue for a category-referenced audit exactly
when its score is `0` or `null` (a score of `1` yields nothing), and each
failed audit yields exactly one issue whose `items` list carries all of
that audit's element descriptors — no per-element fan-out. -/
theorem lighthouse_failed_audit_iff (url : String) (lhr : LHR)
    (artifactTagMap : List (String × List String)) :
    ((normalizeLhrToResult url lhr artifactTagMap).issues =
        ((lhr.accessibility.bind LhCategory.auditRefs).getD []).filterMap
          (fun ref =>
            match lookupStr lhr.audits ref.id with
            | none => none
            | some audit =>
              if audit.score = some 0 ∨ audit.score = none then
                some (mkLhIssue artifactTagMap audit)
              else none))
      ∧ (∀ audit : LhAudit,
          (mkLhIssue artifactTagMap audit).items.length =
            (audit.detailsItems.getD []).length)
      ∧ (∀ audit : LhAudit, audit.score = some 1 →
          ¬ (audit.score = some 0 ∨ audit.score = none)) := by
  refine ⟨normalize_issues_eq_filterMap url lhr artifactTagMap, ?_, ?_⟩
  · intro audit
    simp [mkLhIssue]
  · intro audit h1
    rw [h1]
    rintro (hc | hc) <;> simp at hc

/-- C9: the pipeline gate exits non-zero exactly when the Lighthouse scan
of its configured URL produced at least one failed audit — i.e. at least
one actionable finding (every emitted Lighthouse issue is actionable) —
and exits 0 against a result with no findings; the exit code is always 0
or 1. -/
theorem lighthouse_gate_exit_iff (url : String) (lhr : LHR)
    (artifactTagMap : List (String × List String)) :
    (lighthouseGateExit (normalizeLhrToResult url lhr artifactTagMap) ≠ 0 ↔
        ∃ ref ∈ (lhr.accessibility.bind LhCategory.auditRefs).getD [],
          ∃ audit, lookupStr lhr.audits ref.id = some audit ∧
            (audit.score = some 0 ∨ audit.score = none))
      ∧ (lighthouseGateExit (normalizeLhrToResult url lhr artifactTagMap) ≠ 0 ↔
          (normalizeLhrToResult url lhr artifactTagMap).issues ≠ [])
      ∧ (lighthouseGateExit (normalizeLhrToResult url lhr artifactTagMap) = 0 ∨
          lighthouseGateExit (normalizeLhrToResult url lhr artifactTagMap) = 1) := by
  have hgate : lighthouseGateExit (normalizeLhrToResult url lhr artifactTagMap) ≠ 0 ↔
      (normalizeLhrToResult url lhr artifactTagMap).issues ≠ [] := by
    rw [lighthouseGateExit]
    by_cases h : (normalizeLhrToResult url lhr artifactTagMap).issues.length > 0
    · rw [if_pos h]
      simp only [ne_eq]
      constructor
      · intro _ hcon
        rw [hcon] at h
        simp at h
      · intro _; omega
    · rw [if_neg h]
      simp only [ne_eq, not_true_eq_false, false_iff, not_not]
      exact List.eq_nil_of_length_eq_zero (by omega)
  refine ⟨?_, hgate, ?_⟩
  · rw [hgate, normalize_issues_eq_filterMap]
    rw [ne_eq, List.filterMap_eq_nil_iff.not]
    push_neg
    constructor
    · rintro ⟨ref, href, hne⟩
      cases hl : lookupStr lhr.audits ref.id with
      | none => rw [hl] at hne; simp at hne
      | some audit =>
        rw [hl] at hne
        change (if audit.score = some 0 ∨ audit.score = none then
            some (mkLhIssue artifactTagMap audit)
          else none) ≠ none at hne
        by_cases hs : audit.score = some 0 ∨ audit.score = none
        · exact ⟨ref, href, audit, hl, hs⟩
        · rw [if_neg hs] at hne; simp at hne
    · rintro ⟨ref, href, audit, hl, hs⟩
      refine ⟨ref, href, ?_⟩
      rw [hl]
      change (if audit.score = some 0 ∨ audit.score = none then
          some (mkLhIssue artifactTagMap audit)
        else none) ≠ none
      rw [if_pos hs]
      simp
  · rw [lighthouseGateExit]
    by_cases h : (normalizeLhrToResult url lhr artifactTagMap).issues.length > 0
    · rw [if_pos h]; right; rfl
    · rw [if_neg h]; left; rfl

/-- Witness for C4: an audit scored exactly 1 does not satisfy the failed
test. -/
theorem lighthouse_failed_audit_iff_witness :
    ¬ ((⟨"html-has-lang", "has lang", none, some 1, none, none⟩ : LhAudit).score = some 0 ∨
        (⟨"html-has-lang", "has lang", none, some 1, none, none⟩ : LhAudit).score = none) :=
  (lighthouse_failed_audit_iff "https://example.com" ⟨none, []⟩ []).2.2
    ⟨"html-has-lang", "has lang", none, some 1, none, none⟩ rfl

/-! ## C10: WAVE capture grammar fallback -/

theorem parseGo_other_mem :
    ∀ (icons : List (String × Option String)) (seen : List String) (a : String),
      seen.contains a = false → a ≠ "" → matchAltCategory a = none →
      (∃ p ∈ icons, jsTrim p.1 = a) →
      ∃ f ∈ parseWaveIconsGo seen icons,
        f.category = "Other" ∧ f.description = a ∧ f.tab = .details := by
  intro icons
  induction icons with
  | nil =>
    rintro seen a _ _ _ ⟨p, hp, _⟩
    simp at hp
  | cons hd tl ih =>
    rintro seen a hseen ha hm ⟨p, hp, hpa⟩
    rw [parseWaveIconsGo]
    by_cases hskip : (jsTrim hd.1 = "" || seen.contains (jsTrim hd.1)) = true
    · rw [if_pos hskip]
      rcases List.mem_cons.mp hp with heq | htl
      · exfalso
        subst heq
        rw [hpa] at hskip
        simp only [Bool.or_eq_true, decide_eq_true_eq] at hskip
        rcases hskip with h | h
        · exact ha h
        · rw [h] at hseen; simp at hseen
      · exact ih seen a hseen ha hm ⟨p, htl, hpa⟩
    · rw [if_neg hskip]
      by_cases hta : jsTrim hd.1 = a
      · refine ⟨_, List.mem_cons_self _ _, ?_⟩
        rw [hta, hm]
        exact ⟨rfl, rfl, rfl⟩
      · rcases List.mem_cons.mp hp with heq | htl
        · exact absurd (heq ▸ hpa) hta
        · have hseen' : (seen ++ [jsTrim hd.1]).contains a = false := by
            simp only [Bool.eq_false_iff, ne_eq, List.elem_iff, List.mem_append,
              List.mem_singleton, not_or]
            constructor
            · intro hmem
              have hcon : seen.contains a = true := List.elem_iff.mpr hmem
              rw [hcon] at hseen
              simp at hseen
            · exact fun h => hta h.symm
          obtain ⟨f, hf, hP⟩ := ih (seen ++ [jsTrim hd.1]) a hseen' ha hm ⟨p, htl, hpa⟩
          exact ⟨f, List.mem_cons_of_mem _ hf, hP⟩

theorem parseGo_length :
    ∀ (icons : List (String × Option String)) (seen : List String),
      (parseWaveIconsGo seen icons).length =
        ((((icons.map (fun p => jsTrim p.1)).filter (fun a => a ≠ "")).toFinset) \
          seen.toFinset).card := by
  intro icons
  induction icons with
  | nil => intro seen; simp [parseWaveIconsGo]
  | cons hd tl ih =>
    intro seen
    rw [parseWaveIconsGo]
    by_cases he : jsTrim hd.1 = ""
    · rw [if_pos (by simp [he])]
      rw [ih seen]
      simp [List.filter_cons, he]
    · by_cases hc : seen.contains (jsTrim hd.1)
      · rw [if_pos (by simp only [Bool.or_eq_true, decide_eq_true_eq]; exact Or.inr hc)]
        rw [ih seen]
        simp only [List.map_cons, List.filter_cons, decide_eq_true_eq]
        rw [if_pos (by simpa using he)]
        rw [List.toFinset_cons]
        rw [Finset.insert_sdiff_of_mem _ (by simpa using List.elem_iff.mp hc)]
      · rw [if_neg (by
          simp only [Bool.or_eq_true, decide_eq_true_eq]
          rintro (h | h)
          · exact he h
          · exact hc h)]
        simp only [List.length_cons]
        rw [ih (seen ++ [jsTrim hd.1])]
        simp only [List.map_cons, List.filter_cons, decide_eq_true_eq]
        rw [if_pos (by simpa using he)]
        rw [List.toFinset_cons, List.toFinset_append]
        simp only [List.toFinset_cons, List.toFinset_nil, insert_emptyc_eq]
        rw [Finset.union_comm seen.toFinset {jsTrim hd.1}]
        rw [← Finset.insert_eq]
        rw [Finset.sdiff_insert]
        have hnm : jsTrim hd.1 ∉ seen.toFinset := by
          simp only [List.mem_toFinset]
          intro hmem
          exact hc (List.elem_iff.mpr hmem)
        have hins :
            insert (jsTrim hd.1) ((tl.map (fun p => jsTrim p.1)).filter
                (fun a => a ≠ "")).toFinset \ seen.toFinset =
              insert (jsTrim hd.1)
                (((tl.map (fun p => jsTrim p.1)).filter (fun a => a ≠ "")).toFinset \
                  seen.toFinset) := by
          ext x
          by_cases hxt : x = jsTrim hd.1
          · subst hxt
            simp [hnm]
          · simp [hxt]
        rw [hins]
        set X := ((tl.map (fun p => jsTrim p.1)).filter (fun a => a ≠ "")).toFinset \
          seen.toFinset with hX
        by_cases hx : jsTrim hd.1 ∈ X
        · rw [Finset.card_erase_of_mem hx, Finset.insert_eq_self.mpr hx]
          have hpos : 0 < X.card := Finset.card_pos.mpr ⟨_, hx⟩
          omega
        · rw [Finset.erase_eq_of_not_mem hx, Finset.card_insert_of_not_mem hx]

/-- C10: an icon whose non-empty alt text does not match the
`CATEGORY: description` grammar still yields a finding — category the
literal `"Other"`, description the whole trimmed alt text, tab `Details`,
not actionable — and the parser skips exactly the empty and
exact-duplicate alt texts (the output has one finding per distinct
non-empty trimmed alt). -/
theorem wave_capture_other_fallback (icons : List (String × Option String)) :
    (∀ p ∈ icons, jsTrim p.1 ≠ "" → matchAltCategory (jsTrim p.1) = none →
        ∃ f ∈ parseWaveCaptureIcons icons,
          f.category = "Other" ∧ f.description = jsTrim p.1 ∧ f.tab = .details ∧
            isActionableFinding f.category = false)
      ∧ (parseWaveCaptureIcons icons).length =
          (((icons.map (fun p => jsTrim p.1)).filter (fun a => a ≠ "")).toFinset).card := by
  constructor
  · intro p hp hne hm
    obtain ⟨f, hf, h1, h2, h3⟩ :=
      parseGo_other_mem icons [] (jsTrim p.1) rfl hne hm ⟨p, hp, rfl⟩
    refine ⟨f, hf, h1, h2, h3, ?_⟩
    rw [h1]
    decide
  · rw [parseWaveCaptureIcons, parseGo_length]
    simp

/-- Witness for C10: a single icon with grammar-breaking alt text yields
one `Other`/`Details` finding. -/
theorem wave_capture_other_fallback_witness :
    ∃ f ∈ parseWaveCaptureIcons [("Broken alt text", none)],
      f.category = "Other" ∧ f.description = jsTrim ("Broken alt text", (none : Option String)).1 ∧
        f.tab = .details ∧ isActionableFinding f.category = false :=
  (wave_capture_other_fallback [("Broken alt text", none)]).1
    ("Broken alt text", none) (by decide) (by decide) (by decide)

/-! ## C6: WAVE Jira conversion, actionable-only view -/

/-- Counterexample to C6 as stated: with an empty findings list and the
actionable-only option enabled, the conversion still emits one issue (the
synthesized Tab Order manual check, marked actionable) — so the output is
not a subset of findings drawn from the actionable categories. -/
theorem wave_jira_actionable_only_counterexample :
    findingsToJiraIssues [] "https://example.com" none true ≠ [] ∧
      (findingsToJiraIssues [] "https://example.com" none true).map WaveJiraIssue.tab =
        [.tabOrder] ∧
      (findingsToJiraIssues [] "https://example.com" none true).map WaveJiraIssue.actionable =
        [true] := by
  refine ⟨?_, rfl, rfl⟩
  intro h
  have : (findingsToJiraIssues [] "https://example.com" none true).length = 1 := rfl
  rw [h] at this
  simp at this

theorem upsertTab_inv (P : WaveCaptureFinding → Prop)
    (m : List (WaveCaptureTab × List WaveCaptureFinding)) (k : WaveCaptureTab)
    (f : WaveCaptureFinding)
    (hm : ∀ e ∈ m, ∀ g ∈ e.2, P g ∧ g.tab = e.1) (hf : P f) (hk : f.tab = k) :
    ∀ e ∈ upsertTab m k f, ∀ g ∈ e.2, P g ∧ g.tab = e.1 := by
  rw [upsertTab]
  by_cases hc : m.any (fun e => e.1 = k)
  · rw [if_pos hc]
    intro e he g hg
    obtain ⟨e₀, he₀, heq⟩ := List.mem_map.mp he
    by_cases hek : e₀.1 = k
    · rw [if_pos hek] at heq
      subst heq
      simp only at hg
      rcases List.mem_append.mp hg with hgo | hgf
      · obtain ⟨h1, h2⟩ := hm e₀ he₀ g hgo
        exact ⟨h1, by rw [h2]⟩
      · simp only [List.mem_singleton] at hgf
        subst hgf
        exact ⟨hf, by rw [hk, hek]⟩
    · rw [if_neg hek] at heq
      subst heq
      exact hm e₀ he₀ g hg
  · rw [if_neg hc]
    intro e he g hg
    rcases List.mem_append.mp he with hel | her
    · exact hm e hel g hg
    · simp only [List.mem_singleton] at her
      subst her
      simp only [List.mem_singleton] at hg
      subst hg
      exact ⟨hf, hk⟩

theorem foldl_upsert_inv (P : WaveCaptureFinding → Prop) :
    ∀ (fs : List WaveCaptureFinding) (m : List (WaveCaptureTab × List WaveCaptureFinding)),
      (∀ e ∈ m, ∀ g ∈ e.2, P g ∧ g.tab = e.1) → (∀ f ∈ fs, P f) →
      ∀ e ∈ fs.foldl (fun m f => upsertTab m f.tab f) m, ∀ g ∈ e.2, P g ∧ g.tab = e.1 := by
  intro fs
  induction fs with
  | nil => intro m hm _; exact hm
  | cons f fs ih =>
    intro m hm hfs
    simp only [List.foldl_cons]
    exact ih (upsertTab m f.tab f)
      (upsertTab_inv P m f.tab f hm (hfs f (by simp)) rfl)
      (fun f' hf' => hfs f' (by simp [hf']))

/-- C6 (amended): in the actionable-only view every emitted issue either
comes from an input finding of an actionable category (errors, contrast
errors, alerts) — never from a features/structural-elements/ARIA finding —
or is one of the two synthesized items: the Tab Order manual check and the
Reference summary. -/
theorem wave_jira_actionable_only_sources (findings : List WaveCaptureFinding)
    (sourceUrl : String) (pageTitle : Option String) :
    ∀ i ∈ findingsToJiraIssues findings sourceUrl pageTitle true,
      i.tab = .tabOrder ∨ i.tab = .reference ∨
        ∃ f ∈ findings, isActionableFinding f.category = true ∧
          i = buildWaveJiraIssue sourceUrl pageTitle f.tab f := by
  intro i hi
  rw [findingsToJiraIssues] at hi
  simp only at hi
  set list := if true = true then findings.filter (fun f => isActionableFinding f.category)
    else findings with hlist
  have hlist' : list = findings.filter (fun f => isActionableFinding f.category) := rfl
  set m1 := list.foldl (fun m f => upsertTab m f.tab f) [] with hm1
  have p1 : ∀ e ∈ m1, ∀ g ∈ e.2, g ∈ list ∧ g.tab = e.1 :=
    foldl_upsert_inv (fun g => g ∈ list) list [] (by simp) (fun f hf => hf)
  set m2 := if hasTab m1 .tabOrder then m1 else m1 ++ [(.tabOrder, [tabOrderPlaceholder])]
    with hm2
  have p2 : ∀ e ∈ m2, ∀ g ∈ e.2, (g ∈ list ∧ g.tab = e.1) ∨ e.1 = .tabOrder := by
    rw [hm2]
    by_cases hc : hasTab m1 .tabOrder
    · rw [if_pos hc]
      intro e he g hg
      exact Or.inl (p1 e he g hg)
    · rw [if_neg hc]
      intro e he g hg
      rcases List.mem_append.mp he with hel | her
      · exact Or.inl (p1 e hel g hg)
      · simp only [List.mem_singleton] at her
        subst her
        exact Or.inr rfl
  set refSet := collectRefSet findings with hrefSet
  set m3 := if refSet.length > 0 && !hasTab m2 .reference then
      m2 ++ [(.reference,
        [⟨"Reference", String.intercalate " | " refSet, .reference,
          some (String.intercalate "; " refSet), none⟩])]
    else m2 with hm3
  have p3 : ∀ e ∈ m3, ∀ g ∈ e.2,
      (g ∈ list ∧ g.tab = e.1) ∨ e.1 = .tabOrder ∨ e.1 = .reference := by
    rw [hm3]
    by_cases hc : (refSet.length > 0 && !hasTab m2 .reference) = true
    · rw [if_pos hc]
      intro e he g hg
      rcases List.mem_append.mp he with hel | her
      · rcases p2 e hel g hg with h | h
        · exact Or.inl h
        · exact Or.inr (Or.inl h)
      · simp only [List.mem_singleton] at her
        subst her
        exact Or.inr (Or.inr rfl)
    · rw [if_neg hc]
      intro e he g hg
      rcases p2 e he g hg with h | h
      · exact Or.inl h
      · exact Or.inr (Or.inl h)
  obtain ⟨e, he, hie⟩ := List.mem_flatMap.mp hi
  obtain ⟨g, hg, heq⟩ := List.mem_map.mp hie
  rcases p3 e he g hg with ⟨hgl, hgt⟩ | h | h
  · right; right
    rw [hlist'] at hgl
    obtain ⟨hgf, hga⟩ := List.mem_filter.mp hgl
    exact ⟨g, hgf, hga, by rw [← heq, hgt]⟩
  · left
    rw [← heq, h]
    rfl
  · right; left
    rw [← heq, h]
    rfl

/-- Witness for C6 (amended): the issue emitted for an empty findings list
is the synthesized Tab Order item. -/
theorem wave_jira_actionable_only_sources_witness :
    (buildWaveJiraIssue "https://example.com" none .tabOrder tabOrderPlaceholder).tab =
          .tabOrder ∨
      (buildWaveJiraIssue "https://example.com" none .tabOrder tabOrderPlaceholder).tab =
          .reference ∨
      ∃ f ∈ ([] : List WaveCaptureFinding), isActionableFinding f.category = true ∧
        buildWaveJiraIssue "https://example.com" none .tabOrder tabOrderPlaceholder =
          buildWaveJiraIssue "https://example.com" none f.tab f :=
  wave_jira_actionable_only_sources [] "https://example.com" none
    (buildWaveJiraIssue "https://example.com" none .tabOrder tabOrderPlaceholder)
    (List.mem_singleton.mpr rfl)

/-! ## C1 and C2: the tree rebuild

Structural lemmas about `subPairs`/`flattenTree`, the `Map` lookups, and
the simulation of `buildTreeFromAXNodes` on flattened well-formed trees. -/

theorem AXTree.ind' (P : AXTree → Prop)
    (h : ∀ id ig r n d cs, (∀ c ∈ cs, P c) → P (.node id ig r n d cs)) : ∀ t, P t := by
  have H : ∀ (N : Nat) (t : AXTree), sizeOf t ≤ N → P t := by
    intro N
    induction N with
    | zero =>
      intro t ht
      cases t with
      | node id ig r n d cs => simp at ht
    | succ N ih =>
      intro t ht
      cases t with
      | node id ig r n d cs =>
        apply h
        intro c hc
        apply ih
        have h1 := List.sizeOf_lt_of_mem hc
        simp only [AXTree.node.sizeOf_spec] at ht
        omega
  intro t
  exact H (sizeOf t) t le_rfl

theorem subPairs_eq (parent : Option String) (id : String) (ig : Bool)
    (r n d : Option String) (cs : List AXTree) :
    subPairs parent (.node id ig r n d cs) =
      (parent, AXTree.node id ig r n d cs) :: subPairsF (some id) cs := by
  rw [subPairs]

theorem subPairsF_nil (parent : Option String) : subPairsF parent [] = [] := by
  rw [subPairsF]

theorem subPairsF_cons (parent : Option String) (c : AXTree) (cs : List AXTree) :
    subPairsF parent (c :: cs) = subPairs parent c ++ subPairsF parent cs := by
  rw [subPairsF]

theorem subPairsF_mem_iff (parent : Option String) (cs : List AXTree)
    (pr : Option String × AXTree) :
    pr ∈ subPairsF parent cs ↔ ∃ c ∈ cs, pr ∈ subPairs parent c := by
  induction cs with
  | nil => simp [subPairsF_nil]
  | cons c cs ih =>
    rw [subPairsF_cons, List.mem_append, ih]
    constructor
    · rintro (h | ⟨c', hc', hpr⟩)
      · exact ⟨c, by simp, h⟩
      · exact ⟨c', by simp [hc'], hpr⟩
    · rintro ⟨c', hc', hpr⟩
      rcases List.mem_cons.mp hc' with heq | htl
      · subst heq; exact Or.inl hpr
      · exact Or.inr ⟨c', htl, hpr⟩

theorem subPairs_self (parent : Option String) (t : AXTree) :
    (parent, t) ∈ subPairs parent t := by
  cases t with
  | node id ig r n d cs => rw [subPairs_eq]; exact List.mem_cons_self _ _

/-- Closure: the `(parent id, child)` pair of any subtree occurrence is
itself an occurrence. -/
theorem subPairs_children_mem :
    ∀ (t : AXTree) (q : Option String), ∀ pr ∈ subPairs q t, ∀ c ∈ pr.2.children,
      (some pr.2.nodeId, c) ∈ subPairs q t := by
  intro t
  induction t using AXTree.ind' with
  | h id ig r n d cs ih =>
    intro q pr hpr c hc
    rw [subPairs_eq] at hpr
    rw [subPairs_eq]
    rcases List.mem_cons.mp hpr with heq | htl
    · subst heq
      simp only [AXTree.children] at hc
      exact List.mem_cons.mpr
        (Or.inr ((subPairsF_mem_iff _ _ _).mpr ⟨c, hc, subPairs_self _ _⟩))
    · obtain ⟨c₀, hc₀, hpr₀⟩ := (subPairsF_mem_iff _ _ _).mp htl
      exact List.mem_cons.mpr
        (Or.inr ((subPairsF_mem_iff _ _ _).mpr ⟨c₀, hc₀, ih c₀ hc₀ (some id) pr hpr₀ c hc⟩))

/-- Every occurrence is the root one, or carries the id of another
occurrence's node as its parent. -/
theorem subPairs_parent_shape :
    ∀ (t : AXTree) (q : Option String), ∀ pr ∈ subPairs q t,
      pr = (q, t) ∨ ∃ pr' ∈ subPairs q t, pr.1 = some pr'.2.nodeId := by
  intro t
  induction t using AXTree.ind' with
  | h id ig r n d cs ih =>
    intro q pr hpr
    rw [subPairs_eq] at hpr
    rcases List.mem_cons.mp hpr with heq | htl
    · exact Or.inl heq
    · right
      obtain ⟨c₀, hc₀, hpr₀⟩ := (subPairsF_mem_iff _ _ _).mp htl
      rcases ih c₀ hc₀ (some id) pr hpr₀ with heq | ⟨pr', hpr', hped⟩
      · refine ⟨(q, .node id ig r n d cs), subPairs_self _ _, ?_⟩
        rw [heq]
        rfl
      · refine ⟨pr', ?_, hped⟩
        rw [subPairs_eq]
        exact List.mem_cons.mpr
          (Or.inr ((subPairsF_mem_iff _ _ _).mpr ⟨c₀, hc₀, hpr'⟩))

theorem flattenTree_eq (parent : Option String) (id : String) (ig : Bool)
    (r n d : Option String) (cs : List AXTree) :
    flattenTree parent (.node id ig r n d cs) =
      mkAXNode parent (.node id ig r n d cs) :: flattenForest (some id) cs := by
  rw [flattenTree, flattenForest, subPairs_eq, List.map_cons]

theorem flattenForest_nil (parent : Option String) : flattenForest parent [] = [] := by
  rw [flattenForest, subPairsF_nil, List.map_nil]

theorem flattenForest_cons (parent : Option String) (c : AXTree) (cs : List AXTree) :
    flattenForest parent (c :: cs) = flattenTree parent c ++ flattenForest parent cs := by
  rw [flattenForest, flattenTree, subPairsF_cons, List.map_append]
  rfl

theorem mem_flatten_of_subPairs {q : Option String} {t : AXTree}
    {pr : Option String × AXTree} (h : pr ∈ subPairs q t) :
    mkAXNode pr.1 pr.2 ∈ flattenTree q t := by
  rw [flattenTree]
  exact List.mem_map.mpr ⟨pr, h, rfl⟩

theorem treeIds_eq_subPairs (t : AXTree) :
    treeIds t = (subPairs none t).map (fun pr => pr.2.nodeId) := by
  rw [treeIds, flattenTree, List.map_map]
  rfl

/-! ### The last-wins `Map` lookups on node lists with distinct ids -/

theorem byIdGet_acc_nomatch (id : String) :
    ∀ (l : List AXNode) (a : Option AXNode), (∀ n ∈ l, n.nodeId ≠ id) →
      l.foldl (fun acc n => if n.nodeId = id then some n else acc) a = a := by
  intro l
  induction l with
  | nil => intro a _; rfl
  | cons n₀ l ih =>
    intro a h
    simp only [List.foldl_cons]
    rw [if_neg (h n₀ (by simp))]
    exact ih a (fun n hn => h n (by simp [hn]))

theorem byIdGet_of_mem {l : List AXNode} {n : AXNode}
    (hnd : (l.map AXNode.nodeId).Nodup) (hm : n ∈ l) :
    byIdGet l n.nodeId = some n := by
  induction l with
  | nil => simp at hm
  | cons n₀ l ih =>
    rw [List.map_cons, List.nodup_cons] at hnd
    rcases List.mem_cons.mp hm with heq | htl
    · subst heq
      rw [byIdGet]
      simp only [List.foldl_cons, if_pos rfl]
      apply byIdGet_acc_nomatch
      intro m hm' hcon
      exact hnd.1 (hcon ▸ List.mem_map.mpr ⟨m, hm', rfl⟩)
    · have hne : n₀.nodeId ≠ n.nodeId := by
        intro hcon
        exact hnd.1 (hcon ▸ List.mem_map.mpr ⟨n, htl, rfl⟩)
      rw [byIdGet]
      simp only [List.foldl_cons, if_neg hne]
      exact ih hnd.2 htl

theorem byIdGet_of_nomatch {l : List AXNode} {id : String}
    (h : ∀ n ∈ l, n.nodeId ≠ id) : byIdGet l id = none :=
  byIdGet_acc_nomatch id l none h

theorem treeNodesGet_acc_nomatch (id : String) :
    ∀ (l : List AXNode) (a : Option AXNode), (∀ n ∈ l, n.nodeId ≠ id) →
      l.foldl (fun acc n => if n.nodeId = id && !n.ignored then some n else acc) a = a := by
  intro l
  induction l with
  | nil => intro a _; rfl
  | cons n₀ l ih =>
    intro a h
    simp only [List.foldl_cons]
    rw [if_neg (by simp [h n₀ (by simp)])]
    exact ih a (fun n hn => h n (by simp [hn]))

theorem treeNodesGet_of_mem {l : List AXNode} {n : AXNode}
    (hnd : (l.map AXNode.nodeId).Nodup) (hm : n ∈ l) :
    treeNodesGet l n.nodeId = if n.ignored then none else some n := by
  induction l with
  | nil => simp at hm
  | cons n₀ l ih =>
    rw [List.map_cons, List.nodup_cons] at hnd
    rcases List.mem_cons.mp hm with heq | htl
    · subst heq
      rw [treeNodesGet]
      simp only [List.foldl_cons]
      have htail : ∀ m ∈ l, m.nodeId ≠ n.nodeId := by
        intro m hm' hcon
        exact hnd.1 (hcon ▸ List.mem_map.mpr ⟨m, hm', rfl⟩)
      cases hig : n.ignored with
      | true =>
        rw [if_neg (by simp [hig])]
        rw [treeNodesGet_acc_nomatch _ l none htail]
        simp
      | false =>
        rw [if_pos (by simp [hig])]
        rw [treeNodesGet_acc_nomatch _ l (some n) htail]
        simp
    · have hne : n₀.nodeId ≠ n.nodeId := by
        intro hcon
        exact hnd.1 (hcon ▸ List.mem_map.mpr ⟨n, htl, rfl⟩)
      rw [treeNodesGet]
      simp only [List.foldl_cons]
      rw [if_neg (by simp [hne])]
      exact ih hnd.2 htl

theorem mkAXNode_nodeId (p : Option String) (s : AXTree) :
    (mkAXNode p s).nodeId = s.nodeId := rfl

theorem mkAXNode_ignored (p : Option String) (s : AXTree) :
    (mkAXNode p s).ignored = s.ignored := rfl

theorem mkAXNode_role (p : Option String) (s : AXTree) :
    (mkAXNode p s).role = s.role := rfl

theorem mkAXNode_name (p : Option String) (s : AXTree) :
    (mkAXNode p s).name = s.name := rfl

theorem mkAXNode_descr (p : Option String) (s : AXTree) :
    (mkAXNode p s).description = s.descr := rfl

theorem mkAXNode_parentId (p : Option String) (s : AXTree) :
    (mkAXNode p s).parentId = p := rfl

theorem mkAXNode_childIds (p : Option String) (s : AXTree) :
    (mkAXNode p s).childIds = s.children.map AXTree.nodeId := rfl

theorem visibleTree_eq (id : String) (ig : Bool) (r n d : Option String) (cs : List AXTree) :
    visibleTree (.node id ig r n d cs) =
      if ig then visibleForest cs
      else [SnapshotNode.mk (axValueToString r) (axValueToString n) (axValueToString d)
        (visibleForest cs)] := by
  rw [visibleTree]

theorem visibleForest_nil : visibleForest [] = [] := by
  rw [visibleForest]

theorem visibleForest_cons (c : AXTree) (cs : List AXTree) :
    visibleForest (c :: cs) = visibleTree c ++ visibleForest cs := by
  rw [visibleForest]

theorem visibleForest_eq_flatMap (cs : List AXTree) :
    visibleForest cs = cs.flatMap visibleTree := by
  induction cs with
  | nil => rw [visibleForest_nil]; rfl
  | cons c cs ih => rw [visibleForest_cons, ih, List.flatMap_cons]

theorem visibleTree_ignored (c : AXTree) (h : c.ignored = true) :
    visibleTree c = visibleForest c.children := by
  cases c with
  | node id ig r n d cs =>
    simp only [AXTree.ignored] at h
    rw [visibleTree_eq, if_pos h]
    rfl

theorem visibleTree_not_ignored (c : AXTree) (h : c.ignored = false) :
    visibleTree c =
      [SnapshotNode.mk (axValueToString c.role) (axValueToString c.name)
        (axValueToString c.descr) (visibleForest c.children)] := by
  cases c with
  | node id ig r n d cs =>
    simp only [AXTree.ignored] at h
    rw [visibleTree_eq, if_neg (by simp [h])]
    rfl

theorem flattenTree_length_decomp (p : Option String) (c : AXTree) :
    (flattenTree p c).length = 1 + (flattenForest (some c.nodeId) c.children).length := by
  cases c with
  | node id ig r n d cs =>
    rw [flattenTree_eq]
    simp [AXTree.nodeId, AXTree.children, Nat.add_comm]

theorem flattenTree_length_pos (p : Option String) (c : AXTree) :
    0 < (flattenTree p c).length := by
  rw [flattenTree_length_decomp]
  omega

theorem flattenTree_length_le_forest (p : Option String) {c : AXTree} :
    ∀ {cs : List AXTree}, c ∈ cs →
      (flattenTree p c).length ≤ (flattenForest p cs).length := by
  intro cs
  induction cs with
  | nil => intro h; simp at h
  | cons c₀ cs ih =>
    intro h
    rw [flattenForest_cons, List.length_append]
    rcases List.mem_cons.mp h with heq | htl
    · subst heq; omega
    · have := ih htl; omega

theorem visChildren_spec (t : AXTree) (hnd : ((flattenTree none t).map AXNode.nodeId).Nodup) :
    ∀ (fuel : Nat) (p : Option String) (s : AXTree),
      (p, s) ∈ subPairs none t →
      (flattenForest (some s.nodeId) s.children).length ≤ fuel →
      visChildren (flattenTree none t) fuel (s.children.map AXTree.nodeId) =
        visibleForest s.children := by
  intro fuel
  induction fuel with
  | zero =>
    intro p s hps hb
    have hcs : s.children = [] := by
      cases hc : s.children with
      | nil => rfl
      | cons c cs' =>
        rw [hc, flattenForest_cons, List.length_append] at hb
        have := flattenTree_length_pos (some s.nodeId) c
        omega
    rw [hcs, visibleForest_nil]
    rfl
  | succ fuel ih =>
    intro p s hps hb
    simp only [visChildren]
    rw [List.flatMap_map, visibleForest_eq_flatMap]
    apply flatMap_congr_of_mem
    intro c hc
    have hcp : (some s.nodeId, c) ∈ subPairs none t :=
      subPairs_children_mem t none (p, s) hps c hc
    have hrow : mkAXNode (some s.nodeId) c ∈ flattenTree none t :=
      mem_flatten_of_subPairs hcp
    have hbc : (flattenForest (some c.nodeId) c.children).length ≤ fuel := by
      have h1 := flattenTree_length_le_forest (some s.nodeId) hc
      have h2 := flattenTree_length_decomp (some s.nodeId) c
      omega
    have hvis := ih (some s.nodeId) c hcp hbc
    have htn0 := treeNodesGet_of_mem hnd hrow
    have hby : byIdGet (flattenTree none t) c.nodeId = some (mkAXNode (some s.nodeId) c) := by
      have h := byIdGet_of_mem hnd hrow
      rwa [mkAXNode_nodeId] at h
    rw [mkAXNode_nodeId, mkAXNode_ignored] at htn0
    cases hig : c.ignored with
    | true =>
      rw [hig, if_pos rfl] at htn0
      rw [htn0, hby]
      simp only [mkAXNode_childIds]
      rw [hvis, visibleTree_ignored c hig]
    | false =>
      rw [hig, if_neg (by simp)] at htn0
      rw [htn0, hby]
      simp only [mkAXNode_role, mkAXNode_name, mkAXNode_descr, mkAXNode_childIds]
      rw [hvis, visibleTree_not_ignored c hig]

theorem snapOf_of_mem {t : AXTree} (hnd : ((flattenTree none t).map AXNode.nodeId).Nodup)
    {p : Option String} {s : AXTree} (hps : (p, s) ∈ subPairs none t) (fuel : Nat)
    (hb : (flattenForest (some s.nodeId) s.children).length ≤ fuel) :
    snapOf (flattenTree none t) fuel s.nodeId =
      if s.ignored then none
      else some (SnapshotNode.mk (axValueToString s.role) (axValueToString s.name)
        (axValueToString s.descr) (visibleForest s.children)) := by
  have hrow : mkAXNode p s ∈ flattenTree none t := mem_flatten_of_subPairs hps
  have htn0 := treeNodesGet_of_mem hnd hrow
  rw [mkAXNode_nodeId, mkAXNode_ignored] at htn0
  have hby : byIdGet (flattenTree none t) s.nodeId = some (mkAXNode p s) := by
    have h := byIdGet_of_mem hnd hrow
    rwa [mkAXNode_nodeId] at h
  cases hig : s.ignored with
  | true =>
    rw [hig, if_pos rfl] at htn0
    rw [snapOf.eq_def, htn0]
    rfl
  | false =>
    rw [hig, if_neg (by simp)] at htn0
    rw [snapOf.eq_def, htn0, hby]
    simp only [mkAXNode_role, mkAXNode_name, mkAXNode_descr, mkAXNode_childIds]
    rw [visChildren_spec t hnd fuel p s hps hb]
    rfl

/-- The simulation: on the flattening of a well-formed tree (distinct,
non-empty ids), `buildTreeFromAXNodes` produces exactly the reference
visible tree — the root's snapshot when the root is not ignored, a
virtual `RootWebArea` root over the spliced visible children when the
root is ignored but has children, nothing otherwise. -/
theorem buildTree_flatten (t : AXTree) (hwf : Wellformed t) :
    buildTreeFromAXNodes (flattenTree none t) = visibleRoot t := by
  obtain ⟨hnd0, hnil⟩ := hwf
  have hnd : ((flattenTree none t).map AXNode.nodeId).Nodup := hnd0
  cases t with
  | node id ig r n d cs =>
    cases ig with
    | false =>
      have hself : ((none : Option String), AXTree.node id false r n d cs) ∈
          subPairs none (.node id false r n d cs) := subPairs_self _ _
      have hL := flattenTree_eq none id false r n d cs
      have hlen := flattenTree_length_decomp none (.node id false r n d cs)
      simp only [AXTree.nodeId, AXTree.children] at hlen
      have hb : (flattenForest (some id) cs).length ≤
          (flattenTree none (.node id false r n d cs)).length := by omega
      have hfind : (flattenTree none (.node id false r n d cs)).find?
          (isRootCandidate (flattenTree none (.node id false r n d cs))) =
            some (mkAXNode none (.node id false r n d cs)) := by
        rw [hL]
        apply List.find?_cons_of_pos
        rw [isRootCandidate]
        rw [← hL]
        simp [mkAXNode_ignored, mkAXNode_parentId, AXTree.ignored]
      have hsnap := snapOf_of_mem hnd hself
        ((flattenTree none (.node id false r n d cs)).length) hb
      simp only [AXTree.nodeId, AXTree.ignored, AXTree.role, AXTree.name, AXTree.descr,
        AXTree.children] at hsnap
      have hsnap2 : snapOf (flattenTree none (.node id false r n d cs))
          (flattenTree none (.node id false r n d cs)).length id =
            some (SnapshotNode.mk (axValueToString r) (axValueToString n)
              (axValueToString d) (visibleForest cs)) := by
        rw [hsnap]
        rfl
      rw [buildTreeFromAXNodes]
      simp only [hfind, mkAXNode_nodeId, AXTree.nodeId, hsnap2]
      rw [visibleRoot]
      rw [if_pos rfl]
    | true =>
      have hself : ((none : Option String), AXTree.node id true r n d cs) ∈
          subPairs none (.node id true r n d cs) := subPairs_self _ _
      have hL := flattenTree_eq none id true r n d cs
      have hlen := flattenTree_length_decomp none (.node id true r n d cs)
      simp only [AXTree.nodeId, AXTree.children] at hlen
      have hb : (flattenForest (some id) cs).length ≤
          (flattenTree none (.node id true r n d cs)).length := by omega
      have hfind : (flattenTree none (.node id true r n d cs)).find?
          (isRootCandidate (flattenTree none (.node id true r n d cs))) = none := by
        rw [List.find?_eq_none]
        intro x hx
        rw [flattenTree] at hx
        obtain ⟨pr, hpr, hxeq⟩ := List.mem_map.mp hx
        subst hxeq
        rcases subPairs_parent_shape _ none pr hpr with heq | ⟨pr2, hpr2, hped⟩
        · subst heq
          rw [isRootCandidate]
          simp [mkAXNode_ignored, AXTree.ignored]
        · rw [isRootCandidate]
          rw [mkAXNode_parentId, hped]
          have hidm : pr2.2.nodeId ∈ (flattenTree none (.node id true r n d cs)).map
              AXNode.nodeId := by
            rw [show (flattenTree none (.node id true r n d cs)).map AXNode.nodeId =
                treeIds (.node id true r n d cs) from rfl]
            rw [treeIds_eq_subPairs]
            exact List.mem_map.mpr ⟨pr2, hpr2, rfl⟩
          have hne : pr2.2.nodeId ≠ "" := by
            intro hcon
            exact hnil (hcon ▸ hidm)
          have hsome : (byIdGet (flattenTree none (.node id true r n d cs))
              pr2.2.nodeId).isNone = false := by
            have hrow2 : mkAXNode pr2.1 pr2.2 ∈ flattenTree none (.node id true r n d cs) :=
              mem_flatten_of_subPairs hpr2
            have h := byIdGet_of_mem hnd hrow2
            rw [mkAXNode_nodeId] at h
            rw [h]
            rfl
          simp [hne, hsome]
      have hhead : (flattenTree none (.node id true r n d cs)).head? =
          some (mkAXNode none (.node id true r n d cs)) := by
        rw [hL]
        rfl
      have hsnap := snapOf_of_mem hnd hself
        ((flattenTree none (.node id true r n d cs)).length) hb
      simp only [AXTree.nodeId, AXTree.ignored, AXTree.children] at hsnap
      have hsnap2 : snapOf (flattenTree none (.node id true r n d cs))
          (flattenTree none (.node id true r n d cs)).length id = none := by
        rw [hsnap]
        rfl
      rw [buildTreeFromAXNodes]
      simp only [hfind, hhead, mkAXNode_nodeId, AXTree.nodeId, hsnap2]
      cases cs with
      | nil =>
        rw [if_neg (by simp [mkAXNode_childIds, AXTree.children])]
        have hone : flattenTree none (.node id true r n d []) =
            [mkAXNode none (.node id true r n d [])] := by
          rw [hL, flattenForest_nil]
        have hnone : (flattenTree none (.node id true r n d [])).find?
            (fun m => !m.ignored) = none := by
          rw [List.find?_eq_none]
          intro x hx
          rw [hone] at hx
          simp only [List.mem_singleton] at hx
          subst hx
          simp [mkAXNode_ignored, AXTree.ignored]
        simp only [hnone]
        rw [visibleRoot]
        rw [if_neg (by simp)]
        simp
      | cons c cs2 =>
        rw [if_pos (by simp [mkAXNode_childIds, AXTree.children])]
        rw [mkAXNode_childIds]
        have hvis := visChildren_spec _ hnd
          ((flattenTree none (.node id true r n d (c :: cs2))).length) none _ hself
          (by simpa using hb)
        simp only [AXTree.children] at hvis
        simp only [AXTree.children]
        rw [hvis]
        rw [visibleRoot]
        rw [if_neg (by simp)]
        rw [if_neg (by simp)]

theorem nodeTriples_eq (r n d : Option String) (cs : List SnapshotNode) :
    nodeTriples (.mk r n d cs) = (r, n, d) :: forestTriples cs := by
  rw [nodeTriples]

theorem forestTriples_nil : forestTriples [] = [] := by
  rw [forestTriples]

theorem forestTriples_cons (c : SnapshotNode) (cs : List SnapshotNode) :
    forestTriples (c :: cs) = nodeTriples c ++ forestTriples cs := by
  rw [forestTriples]

theorem forestTriples_append (l₁ l₂ : List SnapshotNode) :
    forestTriples (l₁ ++ l₂) = forestTriples l₁ ++ forestTriples l₂ := by
  induction l₁ with
  | nil => rw [forestTriples_nil]; rfl
  | cons c l ih =>
    rw [List.cons_append, forestTriples_cons, forestTriples_cons, ih, List.append_assoc]

theorem triples_visible_forest
    (trip : AXNode → Option String × Option String × Option String)
    (htrip : trip = fun m =>
      (axValueToString m.role, axValueToString m.name, axValueToString m.description)) :
    ∀ (l : List AXTree),
      (∀ c ∈ l, ∀ p : Option String, forestTriples (visibleTree c) =
        ((flattenTree p c).filter (fun m => !m.ignored)).map trip) →
      ∀ p : Option String, forestTriples (visibleForest l) =
        ((flattenForest p l).filter (fun m => !m.ignored)).map trip := by
  intro l
  induction l with
  | nil =>
    intro _ p
    rw [visibleForest_nil, forestTriples_nil, flattenForest_nil]
    rfl
  | cons c l ih =>
    intro h p
    rw [visibleForest_cons, forestTriples_append, flattenForest_cons, List.filter_append,
      List.map_append]
    rw [h c (by simp) p, ih (fun c' hc' => h c' (by simp [hc'])) p]

theorem triples_visible
    (trip : AXNode → Option String × Option String × Option String)
    (htrip : trip = fun m =>
      (axValueToString m.role, axValueToString m.name, axValueToString m.description)) :
    ∀ (t : AXTree) (p : Option String),
      forestTriples (visibleTree t) =
        ((flattenTree p t).filter (fun m => !m.ignored)).map trip := by
  intro t
  induction t using AXTree.ind' with
  | h id ig r n d cs ih =>
    intro p
    have hforest := triples_visible_forest trip htrip cs (fun c hc => ih c hc) (some id)
    rw [flattenTree_eq, List.filter_cons]
    cases ig with
    | true =>
      rw [visibleTree_ignored _ (by rfl)]
      simp only [AXTree.children]
      rw [if_neg (by simp [mkAXNode_ignored, AXTree.ignored])]
      exact hforest
    | false =>
      rw [visibleTree_not_ignored _ (by rfl)]
      simp only [AXTree.children, AXTree.role, AXTree.name, AXTree.descr]
      rw [if_pos (by simp [mkAXNode_ignored, AXTree.ignored])]
      rw [forestTriples_cons, forestTriples_nil, List.append_nil, nodeTriples_eq]
      rw [List.map_cons, hforest]
      rw [htrip]
      rfl

theorem stepsFold_append (a b : List (Option String × Option String × Option String))
    (st : A11yTreeInventory × List A11yTreeIssue) :
    stepsFold (a ++ b) st = stepsFold b (stepsFold a st) := by
  rw [stepsFold, stepsFold, stepsFold, List.foldl_append]

theorem walk_steps_aux : ∀ (N : Nat),
    (∀ s : SnapshotNode, sizeOf s ≤ N → ∀ st, walkAcc s st = stepsFold (nodeTriples s) st) ∧
    (∀ l : List SnapshotNode, sizeOf l ≤ N → ∀ st,
      walkForest l st = stepsFold (forestTriples l) st) := by
  intro N
  induction N with
  | zero =>
    constructor
    · intro s hs
      cases s with
      | mk r n d cs => simp at hs
    · intro l hl
      cases l with
      | nil => simp at hl
      | cons c l' => simp at hl
  | succ N ih =>
    constructor
    · intro s hs st
      cases s with
      | mk r n d cs =>
        rw [walkAcc]
        rw [ih.2 cs (by simp only [SnapshotNode.mk.sizeOf_spec] at hs; omega) _]
        rw [nodeTriples_eq]
        rfl
    · intro l hl st
      cases l with
      | nil =>
        rw [walkForest, forestTriples_nil]
        rfl
      | cons c l' =>
        simp only [List.cons.sizeOf_spec] at hl
        rw [walkForest]
        rw [ih.2 l' (by omega) _, ih.1 c (by omega) st]
        rw [forestTriples_cons, stepsFold_append]

theorem walkAcc_eq_stepsFold (s : SnapshotNode) (st : A11yTreeInventory × List A11yTreeIssue) :
    walkAcc s st = stepsFold (nodeTriples s) st :=
  (walk_steps_aux (sizeOf s)).1 s le_rfl st

theorem stepWalk_invTotal (r n d : Option String) (st : A11yTreeInventory × List A11yTreeIssue) :
    invTotal (stepWalk r n d st).1 =
      invTotal st.1 + (if countedRoleStr r then 1 else 0) := by
  by_cases h1 : jsToLower (r.getD "") = "link"
  · simp [stepWalk, countedRoleStr, invTotal, h1] <;> omega
  by_cases h2 : jsToLower (r.getD "") = "button"
  · simp [stepWalk, countedRoleStr, invTotal, h1, h2] <;> omega
  by_cases h3 : jsToLower (r.getD "") = "image"
  · simp [stepWalk, countedRoleStr, invTotal, h1, h2, h3] <;> omega
  by_cases h4 : jsToLower (r.getD "") = "img"
  · simp [stepWalk, countedRoleStr, invTotal, h1, h2, h3, h4] <;> omega
  by_cases h5 : jsToLower (r.getD "") = "video"
  · simp [stepWalk, countedRoleStr, invTotal, h1, h2, h3, h4, h5] <;> omega
  by_cases h6 : jsToLower (r.getD "") = "audio"
  · simp [stepWalk, countedRoleStr, invTotal, h1, h2, h3, h4, h5, h6] <;> omega
  by_cases h7 : jsToLower (r.getD "") = "iframe"
  · simp [stepWalk, countedRoleStr, invTotal, h1, h2, h3, h4, h5, h6, h7] <;> omega
  by_cases h8 : jsToLower (r.getD "") = "embed"
  · simp [stepWalk, countedRoleStr, invTotal, h1, h2, h3, h4, h5, h6, h7, h8] <;> omega
  · simp [stepWalk, countedRoleStr, invTotal, h1, h2, h3, h4, h5, h6, h7, h8] <;> omega

theorem stepsFold_invTotal :
    ∀ (l : List (Option String × Option String × Option String))
      (st : A11yTreeInventory × List A11yTreeIssue),
      invTotal (stepsFold l st).1 =
        invTotal st.1 + (l.filter (fun x => countedRoleStr x.1)).length := by
  intro l
  induction l with
  | nil => intro st; rw [stepsFold]; simp
  | cons x l ih =>
    intro st
    have hcons : stepsFold (x :: l) st = stepsFold l (stepWalk x.1 x.2.1 x.2.2 st) := rfl
    rw [hcons, ih, stepWalk_invTotal, List.filter_cons]
    by_cases hc : countedRoleStr x.1
    · simp only [hc, if_true, List.length_cons]
      omega
    · simp only [hc, if_false, Bool.false_eq_true]
      omega

theorem travEntries_build (t : AXTree) (hwf : Wellformed t) :
    travEntries (buildTreeFromAXNodes (flattenTree none t)) =
      (if t.ignored = true ∧ t.children.isEmpty = false then
        [((some "RootWebArea" : Option String), (none : Option String), (none : Option String))]
       else []) ++
      ((flattenTree none t).filter (fun m => !m.ignored)).map
        (fun m => (axValueToString m.role, axValueToString m.name,
          axValueToString m.description)) := by
  rw [buildTree_flatten t hwf]
  cases t with
  | node id ig r n d cs =>
    have htrip := triples_visible
      (fun m => (axValueToString m.role, axValueToString m.name, axValueToString m.description))
      rfl (.node id ig r n d cs) none
    cases ig with
    | false =>
      rw [visibleTree_not_ignored _ (by rfl)] at htrip
      simp only [AXTree.role, AXTree.name, AXTree.descr, AXTree.children] at htrip
      rw [forestTriples_cons, forestTriples_nil, List.append_nil] at htrip
      rw [show visibleRoot (.node id false r n d cs) =
        some (.mk (axValueToString r) (axValueToString n) (axValueToString d)
          (visibleForest cs)) from rfl]
      rw [show travEntries (some (SnapshotNode.mk (axValueToString r) (axValueToString n)
          (axValueToString d) (visibleForest cs))) =
        nodeTriples (.mk (axValueToString r) (axValueToString n) (axValueToString d)
          (visibleForest cs)) from rfl]
      rw [htrip]
      rw [if_neg (by simp [AXTree.ignored])]
      rw [List.nil_append]
    | true =>
      rw [visibleTree_ignored _ (by rfl)] at htrip
      simp only [AXTree.children] at htrip
      cases cs with
      | nil =>
        rw [show visibleRoot (.node id true r n d []) = none from rfl]
        rw [show travEntries (none : Option SnapshotNode) = [] from rfl]
        rw [if_neg (by simp [AXTree.children])]
        rw [List.nil_append, flattenTree_eq, flattenForest_nil, List.filter_cons]
        rw [if_neg (by simp [mkAXNode_ignored, AXTree.ignored])]
        rfl
      | cons c cs' =>
        rw [show visibleRoot (.node id true r n d (c :: cs')) =
          some (.mk (some "RootWebArea") none none (visibleForest (c :: cs'))) from rfl]
        rw [show travEntries (some (SnapshotNode.mk (some "RootWebArea") none none
            (visibleForest (c :: cs')))) =
          nodeTriples (.mk (some "RootWebArea") none none (visibleForest (c :: cs')))
          from rfl]
        rw [nodeTriples_eq, htrip]
        rw [if_pos ⟨by rfl, by rfl⟩]
        rfl

theorem runWalk_invTotal (o : Option SnapshotNode) :
    invTotal (runWalk o).1 = ((travEntries o).filter (fun x => countedRoleStr x.1)).length := by
  cases o with
  | none => rfl
  | some s =>
    rw [show runWalk (some s) = walkAcc s (emptyInventory, []) from rfl]
    rw [walkAcc_eq_stepsFold, stepsFold_invTotal]
    rw [show invTotal (emptyInventory, ([] : List A11yTreeIssue)).1 = 0 from rfl, Nat.zero_add]
    rfl

def wTree : AXTree :=
  .node "1" false (some "RootWebArea") none none
    [.node "2" true none none none
      [.node "3" false (some "link") (some "Home") none []]]

theorem wTree_ids : treeIds wTree = ["1", "2", "3"] := by
  rw [show wTree = AXTree.node "1" false (some "RootWebArea") none none
    [.node "2" true none none none
      [.node "3" false (some "link") (some "Home") none []]] from rfl]
  rw [treeIds]
  simp only [flattenTree_eq, flattenForest_cons, flattenForest_nil]
  rfl

theorem wTree_wf : Wellformed wTree := by
  rw [Wellformed, wTree_ids]
  exact ⟨by decide, by decide⟩

/-- C2: for every well-formed flat accessibility node list (the preorder
flattening of a CDP tree), the depth-first traversal of the tree rebuilt by
`buildTreeFromAXNodes` visits exactly the non-ignored rows of the flat
list, once each and in order (preceded only by the virtual `RootWebArea`
entry when the root itself is ignored but has children), and the sum of
the six per-role inventory counters accumulated by `walk` equals the
number of non-ignored rows whose role is in the counted set. -/
theorem tree_walk_complete (t : AXTree) (hwf : Wellformed t) :
    travPairs (buildTreeFromAXNodes (flattenTree none t)) =
      (if t.ignored = true ∧ t.children.isEmpty = false then
        [((some "RootWebArea" : Option String), (none : Option String))] else []) ++
      ((flattenTree none t).filter (fun m => !m.ignored)).map
        (fun m => (axValueToString m.role, axValueToString m.name)) ∧
    invTotal (runWalk (buildTreeFromAXNodes (flattenTree none t))).1 =
      (((flattenTree none t).filter (fun m => !m.ignored)).filter
        (fun m => countedRoleStr (axValueToString m.role))).length := by
  have hent := travEntries_build t hwf
  constructor
  · rw [travPairs, hent, List.map_append, List.map_map]
    by_cases hc : t.ignored = true ∧ t.children.isEmpty = false
    · rw [if_pos hc, if_pos hc]
      rfl
    · rw [if_neg hc, if_neg hc]
      rfl
  · rw [runWalk_invTotal, hent, List.filter_append]
    by_cases hc : t.ignored = true ∧ t.children.isEmpty = false
    · rw [if_pos hc]
      rw [show List.filter (fun x => countedRoleStr x.1)
          [((some "RootWebArea" : Option String), (none : Option String),
            (none : Option String))] = [] from rfl]
      rw [List.nil_append, List.filter_map]
      rw [List.length_map]
      rfl
    · rw [if_neg hc]
      rw [List.filter_nil, List.nil_append, List.filter_map, List.length_map]
      rfl

theorem tree_walk_complete_witness :
    Wellformed wTree ∧
    (travPairs (buildTreeFromAXNodes (flattenTree none wTree)) =
      (if wTree.ignored = true ∧ wTree.children.isEmpty = false then
        [((some "RootWebArea" : Option String), (none : Option String))] else []) ++
      ((flattenTree none wTree).filter (fun m => !m.ignored)).map
        (fun m => (axValueToString m.role, axValueToString m.name)) ∧
    invTotal (runWalk (buildTreeFromAXNodes (flattenTree none wTree))).1 =
      (((flattenTree none wTree).filter (fun m => !m.ignored)).filter
        (fun m => countedRoleStr (axValueToString m.role))).length) :=
  ⟨wTree_wf, tree_walk_complete wTree wTree_wf⟩

theorem flattenForest_append (p : Option String) (l₁ l₂ : List AXTree) :
    flattenForest p (l₁ ++ l₂) = flattenForest p l₁ ++ flattenForest p l₂ := by
  induction l₁ with
  | nil => rw [flattenForest_nil]; rfl
  | cons c l ih =>
    rw [List.cons_append, flattenForest_cons, flattenForest_cons, ih, List.append_assoc]

theorem flattenForest_trip_indep :
    ∀ (cs : List AXTree) (p q : Option String),
      ((flattenForest p cs).filter (fun m => !m.ignored)).map
        (fun m => (axValueToString m.role, axValueToString m.name,
          axValueToString m.description)) =
      ((flattenForest q cs).filter (fun m => !m.ignored)).map
        (fun m => (axValueToString m.role, axValueToString m.name,
          axValueToString m.description)) := by
  intro cs
  induction cs with
  | nil => intro p q; rw [flattenForest_nil, flattenForest_nil]
  | cons c cs' ih =>
    intro p q
    cases c with
    | node cid cig cr cn cd ccs =>
      rw [flattenForest_cons, flattenForest_cons, flattenTree_eq, flattenTree_eq]
      rw [List.cons_append, List.cons_append, List.filter_cons, List.filter_cons]
      cases cig with
      | true =>
        rw [if_neg (by simp [mkAXNode_ignored, AXTree.ignored]),
            if_neg (by simp [mkAXNode_ignored, AXTree.ignored])]
        rw [List.filter_append, List.filter_append, List.map_append, List.map_append]
        rw [ih p q]
      | false =>
        rw [if_pos (by simp [mkAXNode_ignored, AXTree.ignored]),
            if_pos (by simp [mkAXNode_ignored, AXTree.ignored])]
        rw [List.map_cons, List.map_cons]
        rw [List.filter_append, List.filter_append, List.map_append, List.map_append]
        rw [ih p q]
        rfl

theorem flattenForest_ids_indep :
    ∀ (cs : List AXTree) (p q : Option String),
      (flattenForest p cs).map AXNode.nodeId = (flattenForest q cs).map AXNode.nodeId := by
  intro cs
  induction cs with
  | nil => intro p q; rw [flattenForest_nil, flattenForest_nil]
  | cons c cs' ih =>
    intro p q
    cases c with
    | node cid cig cr cn cd ccs =>
      rw [flattenForest_cons, flattenForest_cons, flattenTree_eq, flattenTree_eq]
      rw [List.cons_append, List.cons_append, List.map_cons, List.map_cons]
      rw [List.map_append, List.map_append, ih p q]
      rfl

theorem replacedBy_trips (g : AXTree) (hig : g.ignored = true) :
    ∀ (t t' : AXTree), ReplacedBy g g.children t t' → ∀ p : Option String,
      ((flattenTree p t').filter (fun m => !m.ignored)).map
        (fun m => (axValueToString m.role, axValueToString m.name,
          axValueToString m.description)) =
      ((flattenTree p t).filter (fun m => !m.ignored)).map
        (fun m => (axValueToString m.role, axValueToString m.name,
          axValueToString m.description)) := by
  cases g with
  | node gid gig gr gn gd gcs =>
    simp only [AXTree.ignored] at hig
    subst hig
    simp only [AXTree.children]
    intro t t' h
    induction h with
    | here id ig r n d pre post =>
      intro p
      rw [flattenTree_eq, flattenTree_eq, List.filter_cons, List.filter_cons]
      have hcore :
          ((flattenForest (some id) (pre ++ gcs ++ post)).filter
            (fun m => !m.ignored)).map
            (fun m => (axValueToString m.role, axValueToString m.name,
              axValueToString m.description)) =
          ((flattenForest (some id)
            (pre ++ AXTree.node gid true gr gn gd gcs :: post)).filter
            (fun m => !m.ignored)).map
            (fun m => (axValueToString m.role, axValueToString m.name,
              axValueToString m.description)) := by
        rw [flattenForest_append, flattenForest_append, flattenForest_append,
          flattenForest_cons, flattenTree_eq]
        rw [List.filter_append, List.filter_append, List.filter_append,
          List.filter_append, List.map_append, List.map_append, List.map_append,
          List.map_append]
        rw [List.filter_cons]
        rw [if_neg (by simp [mkAXNode_ignored, AXTree.ignored])]
        rw [flattenForest_trip_indep gcs (some id) (some gid)]
        rw [List.append_assoc]
      cases ig with
      | true =>
        rw [if_neg (by simp [mkAXNode_ignored, AXTree.ignored]),
            if_neg (by simp [mkAXNode_ignored, AXTree.ignored])]
        exact hcore
      | false =>
        rw [if_pos (by simp [mkAXNode_ignored, AXTree.ignored]),
            if_pos (by simp [mkAXNode_ignored, AXTree.ignored])]
        rw [List.map_cons, List.map_cons, hcore]
        rfl
    | deeper id ig r n d pre post c c' hrec ih =>
      intro p
      rw [flattenTree_eq, flattenTree_eq, List.filter_cons, List.filter_cons]
      have hcore :
          ((flattenForest (some id) (pre ++ c' :: post)).filter
            (fun m => !m.ignored)).map
            (fun m => (axValueToString m.role, axValueToString m.name,
              axValueToString m.description)) =
          ((flattenForest (some id) (pre ++ c :: post)).filter
            (fun m => !m.ignored)).map
            (fun m => (axValueToString m.role, axValueToString m.name,
              axValueToString m.description)) := by
        rw [flattenForest_append, flattenForest_append, flattenForest_cons,
          flattenForest_cons]
        rw [List.filter_append, List.filter_append, List.filter_append,
          List.filter_append, List.map_append, List.map_append, List.map_append,
          List.map_append]
        rw [ih (some id)]
      cases ig with
      | true =>
        rw [if_neg (by simp [mkAXNode_ignored, AXTree.ignored]),
            if_neg (by simp [mkAXNode_ignored, AXTree.ignored])]
        exact hcore
      | false =>
        rw [if_pos (by simp [mkAXNode_ignored, AXTree.ignored]),
            if_pos (by simp [mkAXNode_ignored, AXTree.ignored])]
        rw [List.map_cons, List.map_cons, hcore]
        rfl

theorem replacedBy_root_shape (g : AXTree) (repl : List AXTree) (t t' : AXTree)
    (h : ReplacedBy g repl t t') (hrepl : repl ≠ []) :
    t'.ignored = t.ignored ∧ t.children.isEmpty = false ∧ t'.children.isEmpty = false := by
  cases h with
  | here id ig r n d pre post =>
    refine ⟨rfl, ?_, ?_⟩
    · simp [AXTree.children]
    · simp [AXTree.children, hrepl]
  | deeper id ig r n d pre post c c' hrec =>
    exact ⟨rfl, by simp [AXTree.children], by simp [AXTree.children]⟩

theorem replacedBy_ids_sublist (g : AXTree) :
    ∀ (t t' : AXTree), ReplacedBy g g.children t t' → ∀ p : Option String,
      ((flattenTree p t').map AXNode.nodeId).Sublist
        ((flattenTree p t).map AXNode.nodeId) := by
  cases g with
  | node gid gig gr gn gd gcs =>
    simp only [AXTree.children]
    intro t t' h
    induction h with
    | here id ig r n d pre post =>
      intro p
      rw [flattenTree_eq, flattenTree_eq, List.map_cons, List.map_cons]
      rw [flattenForest_append, flattenForest_append, flattenForest_append,
        flattenForest_cons, flattenTree_eq]
      rw [List.map_append, List.map_append, List.map_append, List.map_append,
        List.map_cons]
      rw [flattenForest_ids_indep gcs (some id) (some gid)]
      refine List.Sublist.cons₂ _ ?_
      rw [List.append_assoc]
      exact (List.Sublist.refl _).append
        ((List.sublist_cons_self _ _).append (List.Sublist.refl _))
    | deeper id ig r n d pre post c c' hrec ih =>
      intro p
      rw [flattenTree_eq, flattenTree_eq, List.map_cons, List.map_cons]
      rw [flattenForest_append, flattenForest_append, flattenForest_cons,
        flattenForest_cons]
      rw [List.map_append, List.map_append, List.map_append, List.map_append]
      exact List.Sublist.cons₂ _
        ((List.Sublist.refl _).append ((ih (some id)).append (List.Sublist.refl _)))

theorem replacedBy_wf (g t t' : AXTree) (hrep : ReplacedBy g g.children t t')
    (hwf : Wellformed t) : Wellformed t' := by
  obtain ⟨hnd, hmem⟩ := hwf
  have hs := replacedBy_ids_sublist g t t' hrep none
  rw [Wellformed] at *
  rw [treeIds] at *
  exact ⟨List.Nodup.sublist hs hnd, fun hm => hmem (hs.subset hm)⟩

/-- C1: reparenting law. For every well-formed flat node list containing an
ignored node `g` with children, `buildTreeFromAXNodes` elides `g` and keeps
its descendants: the `(role, name)` pairs visited by the depth-first walk of
the built tree are identical whether the input is the flattening of the tree
with `g` present or of the tree with `g` removed and its children spliced in
place under `g`'s parent (and `g` itself, being ignored, contributes no
entry in either case). -/
theorem reparenting_law (g t t' : AXTree)
    (hig : g.ignored = true) (hne : g.children.isEmpty = false)
    (hrep : ReplacedBy g g.children t t')
    (hwf : Wellformed t) :
    travPairs (buildTreeFromAXNodes (flattenTree none t')) =
      travPairs (buildTreeFromAXNodes (flattenTree none t)) := by
  have hwf' : Wellformed t' := replacedBy_wf g t t' hrep hwf
  have hreplne : g.children ≠ [] := by
    intro hnil
    rw [hnil] at hne
    exact absurd hne (by decide)
  obtain ⟨hie, hc1, hc2⟩ := replacedBy_root_shape g g.children t t' hrep hreplne
  have htr := replacedBy_trips g hig t t' hrep none
  rw [travPairs, travPairs, travEntries_build t hwf, travEntries_build t' hwf']
  rw [List.map_append, List.map_append]
  congr 1
  · by_cases hri : t.ignored = true
    · rw [if_pos ⟨hie.trans hri, hc2⟩, if_pos ⟨hri, hc1⟩]
    · rw [if_neg (fun hc => hri (hie.symm.trans hc.1)), if_neg (fun hc => hri hc.1)]
  · rw [htr]

def gNode : AXTree :=
  .node "2" true none none none
    [.node "3" false (some "link") (some "Home") none []]

def wTree2 : AXTree :=
  .node "1" false (some "RootWebArea") none none
    [.node "3" false (some "link") (some "Home") none []]

theorem wTree2_ids : treeIds wTree2 = ["1", "3"] := by
  rw [show wTree2 = AXTree.node "1" false (some "RootWebArea") none none
    [.node "3" false (some "link") (some "Home") none []] from rfl]
  rw [treeIds]
  simp only [flattenTree_eq, flattenForest_cons, flattenForest_nil]
  rfl

theorem wRep : ReplacedBy gNode gNode.children wTree wTree2 :=
  ReplacedBy.here "1" false (some "RootWebArea") none none [] []

theorem reparenting_law_witness :
    (gNode.ignored = true ∧ gNode.children.isEmpty = false ∧
      ReplacedBy gNode gNode.children wTree wTree2 ∧ Wellformed wTree) ∧
    travPairs (buildTreeFromAXNodes (flattenTree none wTree2)) =
      travPairs (buildTreeFromAXNodes (flattenTree none wTree)) :=
  ⟨⟨rfl, rfl, wRep, wTree_wf⟩,
    reparenting_law gNode wTree wTree2 rfl rfl wRep wTree_wf⟩
